import Mathlib

/-!
Verification of the navwarns parsing core (src/scripts/parser.py and
src/scripts/archive_cancelled_messages.py), shallowly embedded in Lean.

Modelling conventions:
* Python `float` values are modelled as exact rationals (`ℚ`); the numeric
  formulas of the source (`deg + min/60`, `radius/60`, ...) are reproduced
  over `ℚ`.
* Python strings are modelled as `List Char` / `String`.
* The transcendental functions `math.sin`/`math.cos` used by the circle
  tessellation cannot be represented exactly; they are abstracted into a
  `Trig` parameter, and every theorem about the tessellation holds for all
  realizations of that parameter (the claims only constrain the ring's
  structure, never the tessellated point values).
* Regular expressions of the source are embedded as hand-written scanners
  that follow the source pattern alternative-by-alternative.  Each scanner
  is deterministic because, in every pattern of the source, backtracking
  can never produce a second distinct parse at the same start position
  (digit runs are always delimited by non-digit literals, and alternatives
  are mutually exclusive at their first divergent character); the few spots
  where Python would backtrack (optional fraction groups, `[ \d]+`
  give-back before `\s`, `S?` give-back) are modelled explicitly.
* Python `\d`, `\s`, `\w` are modelled over the character sets actually
  occurring in this corpus (ASCII digits; ASCII whitespace; ASCII word
  characters plus Cyrillic letters), as is `str.upper`/`str.lower`
  (ASCII plus the Cyrillic block used by PRIP messages).
-/

namespace Navwarns

/-! ## Character classes and Python-style case mapping -/

/-- Python `\d` (ASCII decimal digits, as used by this corpus). -/
def isDigitPy (c : Char) : Bool := '0' ≤ c && c ≤ '9'

/-- Python `\s` (whitespace characters occurring in this corpus). -/
def isSpacePy (c : Char) : Bool :=
  c = ' ' || c = '\t' || c = '\n' || c = '\r' || c = '\x0b' || c = '\x0c'

/-- Cyrillic letter test (U+0410–U+044F plus Ё/ё). -/
def isCyr (c : Char) : Bool :=
  ('А' ≤ c && c ≤ 'я') || c = 'Ё' || c = 'ё'

/-- Python `\w` as relevant here: ASCII letters/digits/underscore and Cyrillic letters. -/
def isWordPy (c : Char) : Bool :=
  isDigitPy c || ('A' ≤ c && c ≤ 'Z') || ('a' ≤ c && c ≤ 'z') || c = '_' || isCyr c

/-- Python `str.upper` on one character (ASCII + Cyrillic). -/
def upperPy (c : Char) : Char :=
  if 'a' ≤ c && c ≤ 'z' then Char.ofNat (c.toNat - 32)
  else if 'а' ≤ c && c ≤ 'я' then Char.ofNat (c.toNat - 32)
  else if c = 'ё' then 'Ё'
  else c

/-- Python `str.lower` on one character (ASCII + Cyrillic). -/
def lowerPy (c : Char) : Char :=
  if 'A' ≤ c && c ≤ 'Z' then Char.ofNat (c.toNat + 32)
  else if 'А' ≤ c && c ≤ 'Я' then Char.ofNat (c.toNat + 32)
  else if c = 'Ё' then 'ё'
  else c

def upperStr (s : String) : String := ⟨s.data.map upperPy⟩

def lowerStr (s : String) : String := ⟨s.data.map lowerPy⟩

/-! ## Basic string utilities (Python semantics) -/

/-- `lpre n h`: `h` starts with `n` (list version of `str.startswith`). -/
def lpre : List Char → List Char → Bool
  | [], _ => true
  | _ :: _, [] => false
  | a :: as, b :: bs => a = b && lpre as bs

/-- Python `needle in hay` substring test, on char lists. -/
def hasSubList (needle : List Char) : List Char → Bool
  | [] => lpre needle []
  | c :: t => lpre needle (c :: t) || hasSubList needle t

/-- Python `needle in hay` substring test. -/
def hasSub (hay needle : String) : Bool := hasSubList needle.data hay.data

/-- Python `str.endswith`. -/
def endsWithPy (s suffixStr : String) : Bool := lpre suffixStr.data.reverse s.data.reverse

/-- Greedy character-class run: `(l.takeWhile p, l.dropWhile p)`.
Models a greedy `X+`/`X*` scan of a Python regex (the patterns embedded
here always follow such a run with a character outside the class, so the
greedy result is the unique parse). -/
def spanPy (p : Char → Bool) (l : List Char) : List Char × List Char :=
  (l.takeWhile p, l.dropWhile p)

/-- Digit list to natural number (`int()` on a digit string). -/
def natOfDigits (ds : List Char) : ℕ :=
  ds.foldl (fun acc c => 10 * acc + (c.toNat - '0'.toNat)) 0

/-- Fractional value of a digit list read after a decimal point. -/
def fracOfDigits (ds : List Char) : ℚ :=
  (natOfDigits ds : ℚ) / ((10 : ℚ) ^ ds.length)

/-! ## Coordinate lexer: `coord_to_decimal` (parser.py lines 336–362)

Source regexes, tried in order:
  DMS: `^(\d+)-(\d+)-(\d+(?:\.\d+)?)([NSEW])$`
  DM:  `^(\d+)-(\d+\.\d+)([NSEW])$`
`$` matches at the end of the string or just before a single trailing
newline (Python non-MULTILINE semantics). -/

/-- `[NSEW]` character class. -/
def isHemiB (h : Char) : Bool := h = 'N' || h = 'S' || h = 'E' || h = 'W'

/-- Hemisphere + `$` tail: one char of `[NSEW]` then end (or a final newline). -/
def hemiEnd (cs : List Char) : Option Char :=
  match cs with
  | [h] => if isHemiB h then some h else none
  | [h, nl] => if isHemiB h && nl = '\n' then some h else none
  | _ => none

/-- Capture groups of the DMS regex `^(\d+)-(\d+)-(\d+(?:\.\d+)?)([NSEW])$`:
degree, minute and second digit runs, optional fraction of seconds, hemisphere. -/
def matchDMS (cs : List Char) : Option (List Char × List Char × List Char × Option (List Char) × Char) :=
  let (d1, r1) := spanPy isDigitPy cs
  if d1 = [] then none else
  match r1 with
  | '-' :: r2 =>
    let (d2, r3) := spanPy isDigitPy r2
    if d2 = [] then none else
    match r3 with
    | '-' :: r4 =>
      let (d3, r5) := spanPy isDigitPy r4
      if d3 = [] then none else
      match r5 with
      | '.' :: r6 =>
        -- optional fraction must be taken when '.' follows (skipping it
        -- would put `[NSEW]` on '.', which fails)
        let (d4, r7) := spanPy isDigitPy r6
        if d4 = [] then none else
        (hemiEnd r7).map fun h => (d1, d2, d3, some d4, h)
      | _ => (hemiEnd r5).map fun h => (d1, d2, d3, none, h)
    | _ => none
  | _ => none

/-- Capture groups of the DM regex `^(\d+)-(\d+\.\d+)([NSEW])$`:
degree run, integral minutes run, fractional minutes run, hemisphere. -/
def matchDM (cs : List Char) : Option (List Char × List Char × List Char × Char) :=
  let (d1, r1) := spanPy isDigitPy cs
  if d1 = [] then none else
  match r1 with
  | '-' :: r2 =>
    let (d2, r3) := spanPy isDigitPy r2
    if d2 = [] then none else
    match r3 with
    | '.' :: r4 =>
      let (d4, r5) := spanPy isDigitPy r4
      if d4 = [] then none else
      (hemiEnd r5).map fun h => (d1, d2, d4, h)
    | _ => none
  | _ => none

/-- Apply hemisphere sign: negate for `S` and `W`. -/
def hemiSign (h : Char) (v : ℚ) : ℚ := if h = 'S' || h = 'W' then -v else v

/-- `deg + min/60 + sec/3600` of DMS captures (`sec` includes its fraction). -/
def dmsValue (d1 d2 d3 : List Char) (f : Option (List Char)) (h : Char) : ℚ :=
  let sec : ℚ := (natOfDigits d3 : ℚ) + (match f with | none => 0 | some fd => fracOfDigits fd)
  hemiSign h ((natOfDigits d1 : ℚ) + (natOfDigits d2 : ℚ) / 60 + sec / 3600)

/-- `deg + min/60` of DM captures (decimal minutes). -/
def dmValue (d1 d2 f : List Char) (h : Char) : ℚ :=
  hemiSign h ((natOfDigits d1 : ℚ) + ((natOfDigits d2 : ℚ) + fracOfDigits f) / 60)

/-- `coord_to_decimal` (parser.py 336–362): DMS regex first, then DM;
no match yields `none` (the function never raises). -/
def coord_to_decimal (coord : String) : Option ℚ :=
  match matchDMS coord.data with
  | some (d1, d2, d3, f, h) => some (dmsValue d1 d2 d3 f h)
  | none =>
    match matchDM coord.data with
    | some (d1, d2, f, h) => some (dmValue d1 d2 f h)
    | none => none

example : matchDM "71-45.10N".data = some (['7','1'], ['4','5'], ['1','0'], 'N') := by decide
example : matchDMS "71-45.10N".data = none := by decide
example : matchDMS "64-31-22.0S".data
    = some (['6','4'], ['3','1'], ['2','2'], some ['0'], 'S') := by decide
example : matchDMS "040-28-36E".data
    = some (['0','4','0'], ['2','8'], ['3','6'], none, 'E') := by decide
example : coord_to_decimal "hello" = none := by decide
example : coord_to_decimal "12-34N" = none := by decide
example : coord_to_decimal "12-34.5X" = none := by decide

/-- Cyrillic hemisphere normalization used by `parse_coordinates`
(`str.maketrans({"С": "N", "Ю": "S", "В": "E", "З": "W"})`). -/
def translitChar (c : Char) : Char :=
  if c = 'С' then 'N'
  else if c = 'Ю' then 'S'
  else if c = 'В' then 'E'
  else if c = 'З' then 'W'
  else c

/-! ### Greedy-scan lemmas -/

/-- All characters of a run satisfy the class. -/
abbrev allDigits (ds : List Char) : Prop := ∀ c ∈ ds, isDigitPy c = true

theorem takeWhile_app {p : Char → Bool} :
    ∀ (l : List Char) (x : Char) (rest : List Char),
      (∀ c ∈ l, p c = true) → p x = false →
      List.takeWhile p (l ++ x :: rest) = l := by
  intro l
  induction l with
  | nil => intro x rest _ hx; simp [List.takeWhile_cons, hx]
  | cons a as ih =>
    intro x rest hl hx
    have ha : p a = true := hl a (by simp)
    have has : ∀ c ∈ as, p c = true := fun c hc => hl c (by simp [hc])
    simp [List.takeWhile_cons, ha, ih x rest has hx]

theorem dropWhile_app {p : Char → Bool} :
    ∀ (l : List Char) (x : Char) (rest : List Char),
      (∀ c ∈ l, p c = true) → p x = false →
      List.dropWhile p (l ++ x :: rest) = x :: rest := by
  intro l
  induction l with
  | nil => intro x rest _ hx; simp [List.dropWhile_cons, hx]
  | cons a as ih =>
    intro x rest hl hx
    have ha : p a = true := hl a (by simp)
    have has : ∀ c ∈ as, p c = true := fun c hc => hl c (by simp [hc])
    simp [List.dropWhile_cons, ha, ih x rest has hx]

theorem spanPy_app {p : Char → Bool} (l : List Char) (x : Char) (rest : List Char)
    (hl : ∀ c ∈ l, p c = true) (hx : p x = false) :
    spanPy p (l ++ x :: rest) = (l, x :: rest) := by
  simp [spanPy, takeWhile_app l x rest hl hx, dropWhile_app l x rest hl hx]

theorem hemiB_cases {h : Char} (hh : isHemiB h = true) :
    h = 'N' ∨ h = 'S' ∨ h = 'E' ∨ h = 'W' := by
  simp only [isHemiB, Bool.or_eq_true, decide_eq_true_eq] at hh
  tauto

theorem hemi_not_digit {h : Char} (hh : isHemiB h = true) : isDigitPy h = false := by
  rcases hemiB_cases hh with h1 | h1 | h1 | h1 <;> subst h1 <;> decide

theorem hemiEnd_eval {h : Char} {tail : List Char}
    (hh : isHemiB h = true) (ht : tail = [] ∨ tail = ['\n']) :
    hemiEnd (h :: tail) = some h := by
  rcases ht with ht | ht <;> subst ht <;> simp [hemiEnd, hh]

theorem hemiSign_eq (h : Char) (v : ℚ) :
    hemiSign h v = (if h = 'S' ∨ h = 'W' then (-1 : ℚ) else 1) * v := by
  by_cases hs : h = 'S' ∨ h = 'W'
  · simp only [hemiSign, hs, if_true, Bool.or_eq_true, decide_eq_true_eq, if_pos hs]
    ring
  · simp [hemiSign, hs]

/-! ### Evaluation of `coord_to_decimal` on well-formed tokens -/

/-- Text of the optional seconds fraction (`(?:\.\d+)?`). -/
def fracTail : Option (List Char) → List Char
  | none => []
  | some f => '.' :: f

/-- `l.map g = l` when `g` fixes every element of `l`. -/
theorem map_fix {g : Char → Char} :
    ∀ l : List Char, (∀ c ∈ l, g c = c) → l.map g = l := by
  intro l
  induction l with
  | nil => intro _; rfl
  | cons a as ih =>
    intro hl
    simp [hl a (by simp), ih (fun c hc => hl c (by simp [hc]))]

theorem translit_digit {c : Char} (hc : isDigitPy c = true) : translitChar c = c := by
  by_cases e1 : c = 'С'; · subst e1; simp [isDigitPy] at hc
  by_cases e2 : c = 'Ю'; · subst e2; simp [isDigitPy] at hc
  by_cases e3 : c = 'В'; · subst e3; simp [isDigitPy] at hc
  by_cases e4 : c = 'З'; · subst e4; simp [isDigitPy] at hc
  simp [translitChar, e1, e2, e3, e4]

theorem matchDM_token (d1 d2 f : List Char) (h : Char) (tail : List Char)
    (h1 : allDigits d1) (h1n : d1 ≠ []) (h2 : allDigits d2) (h2n : d2 ≠ [])
    (hf : allDigits f) (hfn : f ≠ []) (hh : isHemiB h = true)
    (ht : tail = [] ∨ tail = ['\n']) :
    matchDM (d1 ++ '-' :: (d2 ++ '.' :: (f ++ h :: tail))) = some (d1, d2, f, h) := by
  have e1 := spanPy_app (p := isDigitPy) d1 '-' (d2 ++ '.' :: (f ++ h :: tail)) h1 (by decide)
  have e2 := spanPy_app (p := isDigitPy) d2 '.' (f ++ h :: tail) h2 (by decide)
  have e3 := spanPy_app (p := isDigitPy) f h tail hf (hemi_not_digit hh)
  simp [matchDM, e1, e2, e3, h1n, h2n, hfn, hemiEnd_eval hh ht]

theorem matchDMS_none_on_dm (d1 d2 rest : List Char)
    (h1 : allDigits d1) (h2 : allDigits d2) (h2n : d2 ≠ []) :
    matchDMS (d1 ++ '-' :: (d2 ++ '.' :: rest)) = none := by
  have e1 := spanPy_app (p := isDigitPy) d1 '-' (d2 ++ '.' :: rest) h1 (by decide)
  have e2 := spanPy_app (p := isDigitPy) d2 '.' rest h2 (by decide)
  by_cases h1n : d1 = []
  · subst h1n
    simp only [List.nil_append] at e1
    simp [matchDMS, e1]
  · simp [matchDMS, e1, e2, h1n, h2n]

theorem matchDMS_token_nofrac (d1 d2 d3 : List Char) (h : Char) (tail : List Char)
    (h1 : allDigits d1) (h1n : d1 ≠ []) (h2 : allDigits d2) (h2n : d2 ≠ [])
    (h3 : allDigits d3) (h3n : d3 ≠ [])
    (hh : isHemiB h = true) (ht : tail = [] ∨ tail = ['\n']) :
    matchDMS (d1 ++ '-' :: (d2 ++ '-' :: (d3 ++ h :: tail)))
      = some (d1, d2, d3, none, h) := by
  have e1 := spanPy_app (p := isDigitPy) d1 '-' (d2 ++ '-' :: (d3 ++ h :: tail)) h1 (by decide)
  have e2 := spanPy_app (p := isDigitPy) d2 '-' (d3 ++ h :: tail) h2 (by decide)
  have e3 := spanPy_app (p := isDigitPy) d3 h tail h3 (hemi_not_digit hh)
  rcases hemiB_cases hh with h0 | h0 | h0 | h0 <;> subst h0 <;>
    rcases ht with ht | ht <;> subst ht <;>
    simp [matchDMS, e1, e2, e3, h1n, h2n, h3n, hemiEnd, isHemiB]

theorem matchDMS_token_frac (d1 d2 d3 fd : List Char) (h : Char) (tail : List Char)
    (h1 : allDigits d1) (h1n : d1 ≠ []) (h2 : allDigits d2) (h2n : d2 ≠ [])
    (h3 : allDigits d3) (h3n : d3 ≠ [])
    (hfd : allDigits fd) (hfdn : fd ≠ [])
    (hh : isHemiB h = true) (ht : tail = [] ∨ tail = ['\n']) :
    matchDMS (d1 ++ '-' :: (d2 ++ '-' :: (d3 ++ '.' :: (fd ++ h :: tail))))
      = some (d1, d2, d3, some fd, h) := by
  have e1 := spanPy_app (p := isDigitPy) d1 '-'
    (d2 ++ '-' :: (d3 ++ '.' :: (fd ++ h :: tail))) h1 (by decide)
  have e2 := spanPy_app (p := isDigitPy) d2 '-' (d3 ++ '.' :: (fd ++ h :: tail)) h2 (by decide)
  have e3 := spanPy_app (p := isDigitPy) d3 '.' (fd ++ h :: tail) h3 (by decide)
  have e4 := spanPy_app (p := isDigitPy) fd h tail hfd (hemi_not_digit hh)
  simp [matchDMS, e1, e2, e3, e4, h1n, h2n, h3n, hfdn, hemiEnd_eval hh ht]

/-! ### The coordinate token grammar and parser inversion -/

/-- The language of `coord_to_decimal`'s two regexes, stated structurally:
either a DMS token `\d+-\d+-\d+(\.\d+)?[NSEW]` or a DM token
`\d+-\d+\.\d+[NSEW]`, each optionally followed by one final newline
(Python `$`). -/
def CoordTokenGrammar (s : String) : Prop :=
  (∃ d1 d2 d3 fo h tail,
      s.data = d1 ++ '-' :: (d2 ++ '-' :: (d3 ++ fracTail fo ++ h :: tail)) ∧
      allDigits d1 ∧ d1 ≠ [] ∧ allDigits d2 ∧ d2 ≠ [] ∧ allDigits d3 ∧ d3 ≠ [] ∧
      (∀ f ∈ fo, allDigits f ∧ f ≠ []) ∧ isHemiB h = true ∧
      (tail = [] ∨ tail = ['\n']))
  ∨ (∃ d1 d2 f h tail,
      s.data = d1 ++ '-' :: (d2 ++ '.' :: (f ++ h :: tail)) ∧
      allDigits d1 ∧ d1 ≠ [] ∧ allDigits d2 ∧ d2 ≠ [] ∧ allDigits f ∧ f ≠ [] ∧
      isHemiB h = true ∧ (tail = [] ∨ tail = ['\n']))

theorem spanPy_inv {p : Char → Bool} {cs a b : List Char} (h : spanPy p cs = (a, b)) :
    cs = a ++ b ∧ (∀ c ∈ a, p c = true) := by
  unfold spanPy at h
  injection h with ha hb
  subst ha; subst hb
  refine ⟨(List.takeWhile_append_dropWhile (p := p) (l := cs)).symm, ?_⟩
  intro c hc
  simpa using List.all_eq_true.mp (List.all_takeWhile (p := p) (l := cs)) c hc

theorem hemiEnd_inv {cs : List Char} {h : Char} (he : hemiEnd cs = some h) :
    isHemiB h = true ∧ (cs = [h] ∨ cs = [h, '\n']) := by
  unfold hemiEnd at he
  split at he
  · rename_i h'
    by_cases hb : isHemiB h' = true
    · rw [if_pos hb] at he
      injection he with he'
      subst he'
      exact ⟨hb, Or.inl rfl⟩
    · rw [if_neg hb] at he
      exact absurd he (by simp)
  · rename_i h' nl
    by_cases hb : (isHemiB h' && nl = '\n') = true
    · rw [if_pos hb] at he
      injection he with he'
      subst he'
      simp only [Bool.and_eq_true, decide_eq_true_eq] at hb
      exact ⟨hb.1, Or.inr (by rw [hb.2])⟩
    · rw [if_neg hb] at he
      exact absurd he (by simp)
  · exact absurd he (by simp)

theorem matchDM_inv {cs : List Char} {d1 d2 f : List Char} {h : Char}
    (hm : matchDM cs = some (d1, d2, f, h)) :
    ∃ tail, cs = d1 ++ '-' :: (d2 ++ '.' :: (f ++ h :: tail)) ∧
      allDigits d1 ∧ d1 ≠ [] ∧ allDigits d2 ∧ d2 ≠ [] ∧ allDigits f ∧ f ≠ [] ∧
      isHemiB h = true ∧ (tail = [] ∨ tail = ['\n']) := by
  unfold matchDM at hm
  rcases e1 : spanPy isDigitPy cs with ⟨a1, b1⟩
  rw [e1] at hm
  dsimp only at hm
  split at hm
  · exact absurd hm (by simp)
  rename_i ha1
  split at hm
  case h_2 => exact absurd hm (by simp)
  rename_i r2
  rcases e2 : spanPy isDigitPy r2 with ⟨a2, b2⟩
  rw [e2] at hm
  dsimp only at hm
  split at hm
  · exact absurd hm (by simp)
  rename_i ha2
  split at hm
  case h_2 => exact absurd hm (by simp)
  rename_i r4
  rcases e3 : spanPy isDigitPy r4 with ⟨a4, b4⟩
  rw [e3] at hm
  dsimp only at hm
  split at hm
  · exact absurd hm (by simp)
  rename_i ha4
  rw [Option.map_eq_some'] at hm
  obtain ⟨h', hhe, heq⟩ := hm
  injection heq with q1 q234
  injection q234 with q2 q34
  injection q34 with q3 q4
  subst q1; subst q2; subst q3; subst q4
  obtain ⟨hcs1, hd1⟩ := spanPy_inv e1
  obtain ⟨hcs2, hd2⟩ := spanPy_inv e2
  obtain ⟨hcs3, hdf⟩ := spanPy_inv e3
  obtain ⟨hhemi, htails⟩ := hemiEnd_inv hhe
  rcases htails with ht | ht
  · refine ⟨[], ?_, hd1, ha1, hd2, ha2, hdf, ha4, hhemi, Or.inl rfl⟩
    rw [hcs1, hcs2, hcs3, ht]
  · refine ⟨['\n'], ?_, hd1, ha1, hd2, ha2, hdf, ha4, hhemi, Or.inr rfl⟩
    rw [hcs1, hcs2, hcs3, ht]

theorem matchDMS_inv {cs : List Char} {d1 d2 d3 : List Char} {fo : Option (List Char)} {h : Char}
    (hm : matchDMS cs = some (d1, d2, d3, fo, h)) :
    ∃ tail, cs = d1 ++ '-' :: (d2 ++ '-' :: (d3 ++ fracTail fo ++ h :: tail)) ∧
      allDigits d1 ∧ d1 ≠ [] ∧ allDigits d2 ∧ d2 ≠ [] ∧ allDigits d3 ∧ d3 ≠ [] ∧
      (∀ f ∈ fo, allDigits f ∧ f ≠ []) ∧ isHemiB h = true ∧
      (tail = [] ∨ tail = ['\n']) := by
  unfold matchDMS at hm
  rcases e1 : spanPy isDigitPy cs with ⟨a1, b1⟩
  rw [e1] at hm
  dsimp only at hm
  split at hm
  · exact absurd hm (by simp)
  rename_i ha1
  split at hm
  case h_2 => exact absurd hm (by simp)
  rename_i r2
  rcases e2 : spanPy isDigitPy r2 with ⟨a2, b2⟩
  rw [e2] at hm
  dsimp only at hm
  split at hm
  · exact absurd hm (by simp)
  rename_i ha2
  split at hm
  case h_2 => exact absurd hm (by simp)
  rename_i r4
  rcases e3 : spanPy isDigitPy r4 with ⟨a3, b3⟩
  rw [e3] at hm
  dsimp only at hm
  split at hm
  · exact absurd hm (by simp)
  rename_i ha3
  obtain ⟨hcs1, hd1⟩ := spanPy_inv e1
  obtain ⟨hcs2, hd2⟩ := spanPy_inv e2
  obtain ⟨hcs3, hd3⟩ := spanPy_inv e3
  split at hm
  · -- fraction branch: b3 = '.' :: r6
    rename_i r6
    rcases e4 : spanPy isDigitPy r6 with ⟨a4, b4⟩
    rw [e4] at hm
    dsimp only at hm
    split at hm
    · exact absurd hm (by simp)
    rename_i ha4
    rw [Option.map_eq_some'] at hm
    obtain ⟨h', hhe, heq⟩ := hm
    injection heq with q1 q2345
    injection q2345 with q2 q345
    injection q345 with q3 q45
    injection q45 with q4 q5
    subst q1; subst q2; subst q3; subst q5
    obtain ⟨hcs4, hd4⟩ := spanPy_inv e4
    obtain ⟨hhemi, htails⟩ := hemiEnd_inv hhe
    have hfo : ∀ fd ∈ fo, allDigits fd ∧ fd ≠ [] := by
      intro fd hfd
      rw [← q4] at hfd
      cases hfd
      exact ⟨hd4, ha4⟩
    rcases htails with ht | ht
    · refine ⟨[], ?_, hd1, ha1, hd2, ha2, hd3, ha3, hfo, hhemi, Or.inl rfl⟩
      rw [hcs1, hcs2, hcs3, hcs4, ht, ← q4]
      simp [fracTail]
    · refine ⟨['\n'], ?_, hd1, ha1, hd2, ha2, hd3, ha3, hfo, hhemi, Or.inr rfl⟩
      rw [hcs1, hcs2, hcs3, hcs4, ht, ← q4]
      simp [fracTail]
  · -- no fraction: hemisphere follows the seconds run directly
    rw [Option.map_eq_some'] at hm
    obtain ⟨h', hhe, heq⟩ := hm
    injection heq with q1 q2345
    injection q2345 with q2 q345
    injection q345 with q3 q45
    injection q45 with q4 q5
    subst q1; subst q2; subst q3; subst q5
    obtain ⟨hhemi, htails⟩ := hemiEnd_inv hhe
    rcases htails with ht | ht
    · refine ⟨[], ?_, hd1, ha1, hd2, ha2, hd3, ha3, ?_, hhemi, Or.inl rfl⟩
      · rw [hcs1, hcs2, hcs3, ht, ← q4]
        simp [fracTail]
      · intro fd hfd; rw [← q4] at hfd; cases hfd
    · refine ⟨['\n'], ?_, hd1, ha1, hd2, ha2, hd3, ha3, ?_, hhemi, Or.inr rfl⟩
      · rw [hcs1, hcs2, hcs3, ht, ← q4]
        simp [fracTail]
      · intro fd hfd; rw [← q4] at hfd; cases hfd

/-- A successful conversion implies the token is in the grammar. -/
theorem coord_to_decimal_some_grammar {s : String} {v : ℚ}
    (hv : coord_to_decimal s = some v) : CoordTokenGrammar s := by
  unfold coord_to_decimal at hv
  cases edms : matchDMS s.data with
  | some r =>
    obtain ⟨d1, d2, d3, fo, h⟩ := r
    obtain ⟨tail, hshape, rest⟩ := matchDMS_inv edms
    exact Or.inl ⟨d1, d2, d3, fo, h, tail, hshape, rest⟩
  | none =>
    rw [edms] at hv
    dsimp only at hv
    cases edm : matchDM s.data with
    | some r =>
      obtain ⟨d1, d2, f, h⟩ := r
      obtain ⟨tail, hshape, rest⟩ := matchDM_inv edm
      exact Or.inr ⟨d1, d2, f, h, tail, hshape, rest⟩
    | none => rw [edm] at hv; exact absurd hv (by simp)

/-- C4: for every coordinate token of the form `DD[D]-MM.mmm H` (degree-minute)
or `DD[D]-MM-SS[.ss] H` (degree-minute-second) with hemisphere letter
`H ∈ {N,S,E,W}` (or, as in `parse_coordinates`, the Cyrillic letters
С, Ю, В, З first normalized to N, S, E, W), `coord_to_decimal` returns
`deg + min/60` (`+ sec/3600` for DMS), negated exactly when `H` is S or W. -/
theorem claim_C4_coord_to_decimal :
    (∀ (d1 d2 f : List Char) (h : Char),
      allDigits d1 → (d1.length = 2 ∨ d1.length = 3) →
      allDigits d2 → d2.length = 2 →
      allDigits f → f ≠ [] →
      isHemiB h = true →
      coord_to_decimal ⟨d1 ++ '-' :: (d2 ++ '.' :: (f ++ [h]))⟩
        = some ((if h = 'S' ∨ h = 'W' then (-1 : ℚ) else 1) *
            ((natOfDigits d1 : ℚ) + ((natOfDigits d2 : ℚ) + fracOfDigits f) / 60)))
    ∧ (∀ (d1 d2 d3 : List Char) (fo : Option (List Char)) (h : Char),
      allDigits d1 → (d1.length = 2 ∨ d1.length = 3) →
      allDigits d2 → d2.length = 2 →
      allDigits d3 → d3.length = 2 →
      (∀ f ∈ fo, allDigits f ∧ f ≠ []) →
      isHemiB h = true →
      coord_to_decimal ⟨d1 ++ '-' :: (d2 ++ '-' :: (d3 ++ (fracTail fo ++ [h])))⟩
        = some ((if h = 'S' ∨ h = 'W' then (-1 : ℚ) else 1) *
            ((natOfDigits d1 : ℚ) + (natOfDigits d2 : ℚ) / 60 +
              ((natOfDigits d3 : ℚ) +
                (match fo with | none => 0 | some f => fracOfDigits f)) / 3600)))
    ∧ (∀ (d1 d2 f : List Char) (hc : Char),
      allDigits d1 → (d1.length = 2 ∨ d1.length = 3) →
      allDigits d2 → d2.length = 2 →
      allDigits f → f ≠ [] →
      (hc = 'С' ∨ hc = 'Ю' ∨ hc = 'В' ∨ hc = 'З') →
      coord_to_decimal ⟨(d1 ++ '-' :: (d2 ++ '.' :: (f ++ [hc]))).map translitChar⟩
        = some ((if hc = 'Ю' ∨ hc = 'З' then (-1 : ℚ) else 1) *
            ((natOfDigits d1 : ℚ) + ((natOfDigits d2 : ℚ) + fracOfDigits f) / 60))) := by
  have dm : ∀ (d1 d2 f : List Char) (h : Char),
      allDigits d1 → d1 ≠ [] → allDigits d2 → d2 ≠ [] →
      allDigits f → f ≠ [] → isHemiB h = true →
      coord_to_decimal ⟨d1 ++ '-' :: (d2 ++ '.' :: (f ++ [h]))⟩
        = some ((if h = 'S' ∨ h = 'W' then (-1 : ℚ) else 1) *
            ((natOfDigits d1 : ℚ) + ((natOfDigits d2 : ℚ) + fracOfDigits f) / 60)) := by
    intro d1 d2 f h h1 h1n h2 h2n hf hfn hh
    have hdm := matchDM_token d1 d2 f h [] h1 h1n h2 h2n hf hfn hh (Or.inl rfl)
    have hdms := matchDMS_none_on_dm d1 d2 (f ++ [h]) h1 h2 h2n
    simp [coord_to_decimal, hdms, hdm, dmValue, hemiSign_eq]
  refine ⟨?_, ?_, ?_⟩
  · intro d1 d2 f h h1 hl1 h2 hl2 hf hfn hh
    have h1n : d1 ≠ [] := by intro hx; subst hx; rcases hl1 with hl | hl <;> simp at hl
    have h2n : d2 ≠ [] := by intro hx; subst hx; simp at hl2
    exact dm d1 d2 f h h1 h1n h2 h2n hf hfn hh
  · intro d1 d2 d3 fo h h1 hl1 h2 hl2 h3 hl3 hfo hh
    have h1n : d1 ≠ [] := by intro hx; subst hx; rcases hl1 with hl | hl <;> simp at hl
    have h2n : d2 ≠ [] := by intro hx; subst hx; simp at hl2
    have h3n : d3 ≠ [] := by intro hx; subst hx; simp at hl3
    cases fo with
    | none =>
      have hdms := matchDMS_token_nofrac d1 d2 d3 h [] h1 h1n h2 h2n h3 h3n hh (Or.inl rfl)
      simp only [fracTail, List.nil_append]
      simp [coord_to_decimal, hdms, dmsValue, hemiSign_eq]
    | some fd =>
      obtain ⟨hfd, hfdn⟩ := hfo fd rfl
      have hdms := matchDMS_token_frac d1 d2 d3 fd h [] h1 h1n h2 h2n h3 h3n hfd hfdn hh
        (Or.inl rfl)
      simp only [fracTail, List.cons_append]
      simp [coord_to_decimal, hdms, dmsValue, hemiSign_eq]
  · intro d1 d2 f hc h1 hl1 h2 hl2 hf hfn hcy
    have h1n : d1 ≠ [] := by intro hx; subst hx; rcases hl1 with hl | hl <;> simp at hl
    have h2n : d2 ≠ [] := by intro hx; subst hx; simp at hl2
    have hmap : (d1 ++ '-' :: (d2 ++ '.' :: (f ++ [hc]))).map translitChar
        = d1 ++ '-' :: (d2 ++ '.' :: (f ++ [translitChar hc])) := by
      have md1 := map_fix d1 (fun c hc0 => translit_digit (h1 c hc0))
      have md2 := map_fix d2 (fun c hc0 => translit_digit (h2 c hc0))
      have mdf := map_fix f (fun c hc0 => translit_digit (hf c hc0))
      have hdash : translitChar '-' = '-' := by decide
      have hdot : translitChar '.' = '.' := by decide
      simp [md1, md2, mdf, hdash, hdot]
    rw [hmap]
    have hh : isHemiB (translitChar hc) = true := by
      rcases hcy with e | e | e | e <;> subst e <;> decide
    rw [dm d1 d2 f (translitChar hc) h1 h1n h2 h2n hf hfn hh]
    rcases hcy with e | e | e | e <;> subst e
    · rw [show translitChar 'С' = 'N' from by decide, if_neg (by decide), if_neg (by decide)]
    · rw [show translitChar 'Ю' = 'S' from by decide, if_pos (by decide), if_pos (by decide)]
    · rw [show translitChar 'В' = 'E' from by decide, if_neg (by decide), if_neg (by decide)]
    · rw [show translitChar 'З' = 'W' from by decide, if_pos (by decide), if_pos (by decide)]

/-! ## `parse_coordinates` (parser.py 365–376) and the `COORD_PATTERN` scanner

`COORD_PATTERN = (\d{2,3}-(?:\d{2}\.\d+|\d{2}-\d{2}(?:\.\d+)?)[NS])\s+(\d{3}-(?:\d{2}\.\d+|\d{2}-\d{2}(?:\.\d+)?)[EW])`
applied with `findall` (leftmost, non-overlapping). -/

/-- Exactly `k` characters of class `p` (`\d{k}`); fails when fewer. -/
def exactRun (p : Char → Bool) (k : ℕ) (cs : List Char) : Option (List Char × List Char) :=
  let t := cs.take k
  if t.length = k && t.all p then some (t, cs.drop k) else none

def isLatHemi (c : Char) : Bool := c = 'N' || c = 'S'

def isLonHemi (c : Char) : Bool := c = 'E' || c = 'W'

/-- The minutes alternation plus hemisphere:
`(?:\d{2}\.\d+|\d{2}-\d{2}(?:\.\d+)?)[NS|EW]`, returning the consumed
token text and the rest.  The alternatives diverge at the character after
the first two digits ('.' vs '-'), so the scan is deterministic. -/
def matchMinutesHemi (hemiSet : Char → Bool) (cs : List Char) : Option (List Char × List Char) :=
  match exactRun isDigitPy 2 cs with
  | none => none
  | some (m, r) =>
    match r with
    | '.' :: r2 =>
      let (fr, r3) := spanPy isDigitPy r2
      if fr = [] then none else
      match r3 with
      | hch :: r4 => if hemiSet hch then some (m ++ '.' :: (fr ++ [hch]), r4) else none
      | [] => none
    | '-' :: r2 =>
      match exactRun isDigitPy 2 r2 with
      | none => none
      | some (sec, r3) =>
        match r3 with
        | '.' :: r4 =>
          -- the optional fraction must be taken when '.' follows; skipping it
          -- would put the hemisphere class on '.', which fails
          let (fr, r5) := spanPy isDigitPy r4
          if fr = [] then none else
          match r5 with
          | hch :: r6 =>
            if hemiSet hch then some (m ++ '-' :: (sec ++ '.' :: (fr ++ [hch])), r6) else none
          | [] => none
        | hch :: r4 => if hemiSet hch then some (m ++ '-' :: (sec ++ [hch]), r4) else none
        | [] => none
    | _ => none

/-- One coordinate component: `\d{3}-…` or (for latitude) `\d{2,3}-…`,
greedy on the leading run (`3` digits tried before `2`; the dash position
makes at most one length viable). -/
def matchCoordSide (allowTwo : Bool) (hemiSet : Char → Bool) (cs : List Char) :
    Option (List Char × List Char) :=
  let try3 :=
    match exactRun isDigitPy 3 cs with
    | some (d, '-' :: r2) =>
      (matchMinutesHemi hemiSet r2).map fun (tok, rest) => (d ++ '-' :: tok, rest)
    | _ => none
  match try3 with
  | some res => some res
  | none =>
    if allowTwo then
      match exactRun isDigitPy 2 cs with
      | some (d, '-' :: r2) =>
        (matchMinutesHemi hemiSet r2).map fun (tok, rest) => (d ++ '-' :: tok, rest)
      | _ => none
    else none

/-- One `COORD_PATTERN` match attempt at the current position:
latitude token, `\s+`, longitude token. -/
def matchCoordPair (cs : List Char) : Option ((String × String) × List Char) :=
  match matchCoordSide true isLatHemi cs with
  | none => none
  | some (latTok, r1) =>
    let (ws, r2) := spanPy isSpacePy r1
    if ws = [] then none else
    match matchCoordSide false isLonHemi r2 with
    | none => none
    | some (lonTok, r3) => some ((⟨latTok⟩, ⟨lonTok⟩), r3)

/-- `findall` driver: try a match at each position, emit and resume after a
match, advance one character otherwise.  Every successful match consumes at
least one character, so `length + 1` units of fuel complete the scan. -/
def coordScan : ℕ → List Char → List (String × String)
  | 0, _ => []
  | _ + 1, [] => []
  | fuel + 1, c :: t =>
    match matchCoordPair (c :: t) with
    | some (pr, rest) => pr :: coordScan fuel rest
    | none => coordScan fuel t

def coordFindall (cs : List Char) : List (String × String) := coordScan (cs.length + 1) cs

/-- Cyrillic normalization pass of `parse_coordinates`. -/
def translitStr (s : String) : String := ⟨s.data.map translitChar⟩

/-- `parse_coordinates` (parser.py 365–376): normalize Cyrillic hemisphere
letters, find all coordinate pairs, convert both tokens, and keep only the
pairs where both conversions produced a value. -/
def parse_coordinates (body : String) : List (ℚ × ℚ) :=
  (coordFindall (translitStr body).data).foldl
    (fun acc p =>
      match coord_to_decimal p.1, coord_to_decimal p.2 with
      | some la, some lo => acc ++ [(la, lo)]
      | _, _ => acc) []

/-- Conversion of one scanned pair, `none` when either token fails. -/
def pairConv (p : String × String) : Option (ℚ × ℚ) :=
  match coord_to_decimal p.1, coord_to_decimal p.2 with
  | some la, some lo => some (la, lo)
  | _, _ => none

theorem coordFold_eq :
    ∀ (l : List (String × String)) (acc : List (ℚ × ℚ)),
      l.foldl (fun acc p =>
        match coord_to_decimal p.1, coord_to_decimal p.2 with
        | some la, some lo => acc ++ [(la, lo)]
        | _, _ => acc) acc
      = acc ++ l.filterMap pairConv := by
  intro l
  induction l with
  | nil => intro acc; simp
  | cons p t ih =>
    intro acc
    cases h1 : coord_to_decimal p.1 with
    | none => simp [List.foldl_cons, h1, ih, pairConv]
    | some la =>
      cases h2 : coord_to_decimal p.2 with
      | none => simp [List.foldl_cons, h1, h2, ih, pairConv]
      | some lo => simp [List.foldl_cons, h1, h2, ih, pairConv]

/-- A token in the grammar always converts (soundness direction). -/
theorem grammar_some {s : String} (hg : CoordTokenGrammar s) :
    (coord_to_decimal s).isSome := by
  rcases hg with ⟨d1, d2, d3, fo, h, tail, hshape, h1, h1n, h2, h2n, h3, h3n, hfo, hh, ht⟩ |
    ⟨d1, d2, f, h, tail, hshape, h1, h1n, h2, h2n, hf, hfn, hh, ht⟩
  · cases fo with
    | none =>
      have hm := matchDMS_token_nofrac d1 d2 d3 h tail h1 h1n h2 h2n h3 h3n hh ht
      have hsh : s.data = d1 ++ '-' :: (d2 ++ '-' :: (d3 ++ h :: tail)) := by
        rw [hshape]; simp [fracTail]
      unfold coord_to_decimal
      rw [hsh, hm]
      simp
    | some fd =>
      obtain ⟨hfd, hfdn⟩ := hfo fd rfl
      have hm := matchDMS_token_frac d1 d2 d3 fd h tail h1 h1n h2 h2n h3 h3n hfd hfdn hh ht
      have hsh : s.data = d1 ++ '-' :: (d2 ++ '-' :: (d3 ++ '.' :: (fd ++ h :: tail))) := by
        rw [hshape]; simp [fracTail]
      unfold coord_to_decimal
      rw [hsh, hm]
      simp
  · have hm := matchDM_token d1 d2 f h tail h1 h1n h2 h2n hf hfn hh ht
    have hms := matchDMS_none_on_dm d1 d2 (f ++ h :: tail) h1 h2 h2n
    unfold coord_to_decimal
    rw [hshape, hms, hm]
    simp

/-- C9: for every input string that does not match the coordinate token
grammar, `coord_to_decimal` returns no value (`none`) without raising, and
`parse_coordinates` silently skips tokens whose conversion fails, returning
the pairs built from the remaining well-formed tokens (both functions are
total, so neither raises on any input text). -/
theorem claim_C9_malformed_tokens :
    (∀ s : String, ¬ CoordTokenGrammar s → coord_to_decimal s = none)
    ∧ (∀ body : String,
        parse_coordinates body
          = (coordFindall (translitStr body).data).filterMap pairConv) := by
  constructor
  · intro s hg
    cases hv : coord_to_decimal s with
    | none => rfl
    | some v => exact absurd (coord_to_decimal_some_grammar hv) hg
  · intro body
    unfold parse_coordinates
    rw [coordFold_eq]
    simp

/-- Witness for C9 at the malformed token `71-45N` (no fractional minutes,
so neither regex matches). -/
theorem claim_C9_malformed_tokens_witness : coord_to_decimal "71-45N" = none :=
  claim_C9_malformed_tokens.1 "71-45N"
    (fun hg => absurd (grammar_some hg) (by decide))

/-- Witness for C4 at the concrete tokens `71-45.10N`, `064-31-22.5S` and
the Cyrillic `68-30.0В`. -/
theorem claim_C4_coord_to_decimal_witness :
    coord_to_decimal ⟨['7','1'] ++ '-' :: (['4','5'] ++ '.' :: (['1','0'] ++ ['N']))⟩
      = some ((if ('N' = 'S' ∨ 'N' = 'W') then (-1 : ℚ) else 1) *
          ((natOfDigits ['7','1'] : ℚ) +
            ((natOfDigits ['4','5'] : ℚ) + fracOfDigits ['1','0']) / 60))
    ∧ coord_to_decimal
        ⟨['0','6','4'] ++ '-' :: (['3','1'] ++ '-' :: (['2','2'] ++ (fracTail (some ['5']) ++ ['S'])))⟩
      = some ((if ('S' = 'S' ∨ 'S' = 'W') then (-1 : ℚ) else 1) *
          ((natOfDigits ['0','6','4'] : ℚ) + (natOfDigits ['3','1'] : ℚ) / 60 +
            ((natOfDigits ['2','2'] : ℚ) + fracOfDigits ['5']) / 3600))
    ∧ coord_to_decimal ⟨(['6','8'] ++ '-' :: (['3','0'] ++ '.' :: (['0'] ++ ['В']))).map translitChar⟩
      = some ((if ('В' = 'Ю' ∨ 'В' = 'З') then (-1 : ℚ) else 1) *
          ((natOfDigits ['6','8'] : ℚ) + ((natOfDigits ['3','0'] : ℚ) + fracOfDigits ['0']) / 60)) :=
  ⟨claim_C4_coord_to_decimal.1 ['7','1'] ['4','5'] ['1','0'] 'N'
      (by decide) (by decide) (by decide) (by decide) (by decide) (by decide) (by decide),
    claim_C4_coord_to_decimal.2.1 ['0','6','4'] ['3','1'] ['2','2'] (some ['5']) 'S'
      (by decide) (by decide) (by decide) (by decide) (by decide) (by decide)
      (by intro f hf; cases hf; exact ⟨by decide, by decide⟩) (by decide),
    claim_C4_coord_to_decimal.2.2 ['6','8'] ['3','0'] ['0'] 'В'
      (by decide) (by decide) (by decide) (by decide) (by decide) (by decide) (by decide)⟩

/-! ## The record model: `NavwarnMessage` (parser.py 107–296) -/

/-- Naive datetime as constructed by `datetime(year, month, day, hour, minute)`. -/
structure DT where
  year : ℕ
  month : ℕ
  day : ℕ
  hour : ℕ
  minute : ℕ
deriving DecidableEq, Repr

/-- The `year` dataclass field is dynamically typed in the source:
`from_text` stores an `int`, `prip_from_text` stores a *string* (`f"20{year}"`). -/
inductive YearV where
  | int (n : ℤ)
  | str (s : String)
deriving DecidableEq, Repr

/-- A GeoJSON geometry object as built by the serializer; points are
`(lon, lat)` pairs, mirroring the `[lon, lat]` order of the source. -/
inductive GeoGeometry where
  | point (p : ℚ × ℚ)
  | multipoint (ps : List (ℚ × ℚ))
  | linestring (ps : List (ℚ × ℚ))
  | polygon (ring : List (ℚ × ℚ))
deriving DecidableEq

/-- The two `properties` dict shapes produced by the serializer: the full
property set of `to_geojson_feature` and the reduced set (with `parent_id`
and `group_index`) of multi-area split features. -/
inductive FeatureProps where
  | full (dtg : Option DT) (raw_dtg : String) (msg_id : Option String) (year : Option YearV)
      (cancellations : List String) (hazard_type : Option String)
      (geometry_kind : Option String) (radius_nm : Option ℚ) (body : String)
  | split (parent_id : Option String) (group_index : ℕ) (dtg : Option DT) (raw_dtg : String)
      (year : Option YearV) (hazard_type : Option String) (body : String)
deriving DecidableEq

/-- `(parent_id, group_index)` of a split feature's properties. -/
def FeatureProps.splitInfo : FeatureProps → Option (Option String × ℕ)
  | .split pid gi _ _ _ _ _ => some (pid, gi)
  | _ => none

structure Feature where
  id : Option String
  geometry : Option GeoGeometry
  properties : FeatureProps
deriving DecidableEq

/-- The parsed-message record (dataclass `NavwarnMessage`); coordinates are
`(lat, lon)` pairs. -/
structure NavwarnMessage where
  dtg : Option DT
  raw_dtg : String
  msg_id : Option String
  coordinates : List (ℚ × ℚ) := []
  cancellations : List String := []
  hazard_type : Option String := none
  geometry : Option String := none
  radius : Option ℚ := none
  groups : List (List (ℚ × ℚ)) := []
  body : String := ""
  year : Option YearV := none

/-- Abstraction of the transcendental float functions used by the circle
tessellation: `sinT i n`/`cosT i n` stand for `sin/cos(2π·i/n)` and
`cosDeg lat` for `math.cos(math.radians(lat))`.  All theorems below hold
for every realization. -/
structure Trig where
  sinT : ℕ → ℕ → ℚ
  cosT : ℕ → ℕ → ℚ
  cosDeg : ℚ → ℚ

/-- A degenerate realization used to evaluate witnesses. -/
def trigZero : Trig := ⟨fun _ _ => 0, fun _ _ => 0, fun _ => 0⟩

/-- Ring closure (parser.py 164–168 / 205–209):
`if ring[0] != ring[-1]: ring.append(ring[0])`. -/
def closeRing (ring : List (ℚ × ℚ)) : List (ℚ × ℚ) :=
  match ring with
  | [] => []
  | x :: _ => if ring.getLast? = some x then ring else ring ++ [x]

/-- `geojson_geometry` (parser.py 125–171).  The circle branch requires a
*truthy* radius (Python `self.radius and …`), i.e. present and nonzero. -/
def NavwarnMessage.geojson_geometry (m : NavwarnMessage) (trig : Trig)
    (circle_segments : ℕ) : Option GeoGeometry :=
  match m.coordinates with
  | [] => none
  | c0 :: _ =>
    let coords := m.coordinates
    let geom_type := lowerStr ((m.geometry).getD "")
    let radiusTruthy : Bool := match m.radius with | some r => !(r == 0) | none => false
    if geom_type = "circle" ∧ radiusTruthy = true ∧ 1 ≤ coords.length then
      match m.radius with
      | some r =>
        let lat_c := c0.1
        let lon_c := c0.2
        let segments := max 8 circle_segments
        let deg_lat := r / 60
        let c := trig.cosDeg lat_c
        let cos_lat := if c = 0 then 1 / 10 ^ 9 else c
        let deg_lon := deg_lat / cos_lat
        let ringBase := (List.range segments).map fun i =>
          (lon_c + trig.cosT i segments * deg_lon, lat_c + trig.sinT i segments * deg_lat)
        some (.polygon (ringBase ++ [ringBase.headD (0, 0)]))
      | none => none
    else if geom_type = "linestring" ∧ 2 ≤ coords.length then
      some (.linestring (coords.map fun p => (p.2, p.1)))
    else if geom_type = "multipoint" ∧ 2 ≤ coords.length then
      some (.multipoint (coords.map fun p => (p.2, p.1)))
    else if geom_type = "polygon" ∧ 3 ≤ coords.length then
      some (.polygon (closeRing (coords.map fun p => (p.2, p.1))))
    else
      some (.point (c0.2, c0.1))

/-- `to_geojson_feature` (parser.py 173–190); the feature id is
`self.msg_id or None` (an empty identifier is falsy). -/
def NavwarnMessage.to_geojson_feature (m : NavwarnMessage) (trig : Trig) : Feature :=
  { id := match m.msg_id with
      | some s => if s = "" then none else some s
      | none => none
    geometry := m.geojson_geometry trig 72
    properties := .full m.dtg m.raw_dtg m.msg_id m.year m.cancellations m.hazard_type
      m.geometry m.radius m.body }

/-- `self.msg_id or 'MSG'` of the split-feature id. -/
def msgIdOrMSG (m : NavwarnMessage) : String :=
  match m.msg_id with
  | some s => if s = "" then "MSG" else s
  | none => "MSG"

/-- Per-group geometry of the multi-area split (parser.py 202–223). -/
def splitGeom (m : NavwarnMessage) (area_hint : Bool) (grp : List (ℚ × ℚ)) : GeoGeometry :=
  if grp.length = 1 then .point ((grp.headD (0, 0)).2, (grp.headD (0, 0)).1)
  else if 3 ≤ grp.length ∧ area_hint = true then
    .polygon (closeRing (grp.map fun p => (p.2, p.1)))
  else if 2 ≤ grp.length ∧ m.geometry = some "linestring" then
    .linestring (grp.map fun p => (p.2, p.1))
  else if 1 < grp.length then .multipoint (grp.map fun p => (p.2, p.1))
  else .point ((grp.headD (0, 0)).2, (grp.headD (0, 0)).1)

/-- `to_geojson_features` (parser.py 192–240): single feature unless there
are at least two (possibly empty) groups and the kind is not circle; empty
groups are skipped but still advance the enumeration index; an empty split
result falls back to the single whole-message feature. -/
def NavwarnMessage.to_geojson_features (m : NavwarnMessage) (trig : Trig) : List Feature :=
  if m.groups = [] ∨ m.groups.length ≤ 1 ∨ m.geometry = some "circle" then
    [m.to_geojson_feature trig]
  else
    let kw := upperStr m.body
    let area_hint := hasSub kw "AREA" || hasSub kw "BOUNDED" || hasSub kw "WITHIN" ||
      hasSub kw "RADIUS"
    let feats := m.groups.enum.filterMap fun ig =>
      if ig.2 = [] then none
      else some {
        id := some (msgIdOrMSG m ++ "#grp" ++ toString (ig.1 + 1))
        geometry := some (splitGeom m area_hint ig.2)
        properties := .split m.msg_id (ig.1 + 1) m.dtg m.raw_dtg m.year m.hazard_type m.body }
    if feats = [] then [m.to_geojson_feature trig] else feats

/-! ### Ring-closure facts (claim C2) -/

theorem closeRing_closed {x : ℚ × ℚ} {t : List (ℚ × ℚ)}
    (h : (x :: t).getLast? = some x) : closeRing (x :: t) = x :: t := by
  simp [closeRing, h]

theorem closeRing_open {x : ℚ × ℚ} {t : List (ℚ × ℚ)}
    (h : (x :: t).getLast? ≠ some x) : closeRing (x :: t) = (x :: t) ++ [x] := by
  simp [closeRing, h]

theorem closeRing_head_last (r : List (ℚ × ℚ)) (hr : r ≠ []) :
    (closeRing r).head? = (closeRing r).getLast? ∧ closeRing r ≠ [] := by
  rcases r with _ | ⟨x, t⟩
  · exact absurd rfl hr
  by_cases h : (x :: t).getLast? = some x
  · rw [closeRing_closed h]
    exact ⟨by simp [h], by simp⟩
  · rw [closeRing_open h]
    refine ⟨?_, by simp⟩
    rw [List.getLast?_concat]
    simp

theorem base_append_head (l : List (ℚ × ℚ)) (hl : l ≠ []) :
    (l ++ [l.headD (0, 0)]).head? = (l ++ [l.headD (0, 0)]).getLast? := by
  obtain ⟨a, t, rfl⟩ := List.exists_cons_of_ne_nil hl
  rw [show a :: t ++ [(a :: t).headD (0, 0)] = (a :: t) ++ [a] from rfl,
    List.getLast?_concat]
  simp

/-- Every polygon emitted by `geojson_geometry` (circle tessellation or
closed coordinate ring) has a non-empty ring whose last point equals its
first. -/
theorem geojson_geometry_polygon_ring (m : NavwarnMessage) (trig : Trig) (cs : ℕ)
    (ring : List (ℚ × ℚ)) (h : m.geojson_geometry trig cs = some (.polygon ring)) :
    ring ≠ [] ∧ ring.head? = ring.getLast? := by
  unfold NavwarnMessage.geojson_geometry at h
  cases hc : m.coordinates with
  | nil => rw [hc] at h; simp at h
  | cons c0 rest =>
    rw [hc] at h
    dsimp only at h
    split at h
    · cases hr : m.radius with
      | none => rw [hr] at h; simp at h
      | some r =>
        rw [hr] at h
        dsimp only at h
        have hbase : ((List.range (max 8 cs)).map fun i =>
            (c0.2 + trig.cosT i (max 8 cs) *
                (r / 60 / (if trig.cosDeg c0.1 = 0 then 1 / 10 ^ 9 else trig.cosDeg c0.1)),
              c0.1 + trig.sinT i (max 8 cs) * (r / 60))) ≠ [] := by
          intro he
          have : (max 8 cs) = 0 := by
            simpa using congrArg List.length he
          omega
        simp only [Option.some.injEq, GeoGeometry.polygon.injEq] at h
        rw [← h]
        exact ⟨by simp, base_append_head _ hbase⟩
    · split at h
      · simp at h
      · split at h
        · simp at h
        · split at h
          · rename_i hcond
            simp only [Option.some.injEq, GeoGeometry.polygon.injEq] at h
            rw [← h]
            have hmap : ((c0 :: rest).map fun p => (p.2, p.1)) ≠ [] := by simp
            obtain ⟨hhl, hne⟩ := closeRing_head_last _ hmap
            exact ⟨hne, hhl⟩
          · simp at h

/-- Every polygon emitted for a split group has a non-empty ring whose last
point equals its first. -/
theorem splitGeom_polygon {m : NavwarnMessage} {area_hint : Bool} {grp : List (ℚ × ℚ)}
    {ring : List (ℚ × ℚ)} (h : splitGeom m area_hint grp = .polygon ring) :
    ring ≠ [] ∧ ring.head? = ring.getLast? := by
  unfold splitGeom at h
  split at h
  · simp at h
  · split at h
    · rename_i hcond
      simp only [GeoGeometry.polygon.injEq] at h
      rw [← h]
      have hgrp : grp ≠ [] := by
        intro he; rw [he] at hcond; simp at hcond
      have hmap : (grp.map fun p => (p.2, p.1)) ≠ [] := by
        simpa using hgrp
      obtain ⟨hhl, hne⟩ := closeRing_head_last _ hmap
      exact ⟨hne, hhl⟩
    · split at h
      · simp at h
      · split at h
        · simp at h
        · simp at h

/-- C2: every polygon ring emitted (whole-message via `geojson_geometry`,
or per-group via `to_geojson_features`) satisfies `ring[0] == ring[-1]`,
and ring closure is idempotent: a coordinate sequence already closed is
emitted unchanged (same length), an open one gets exactly one copy of its
first point appended (length `N+1`), after which first equals last. -/
theorem claim_C2_polygon_ring_closure :
    (∀ (m : NavwarnMessage) (trig : Trig) (cs : ℕ) (ring : List (ℚ × ℚ)),
        m.geojson_geometry trig cs = some (.polygon ring) →
        ring ≠ [] ∧ ring.head? = ring.getLast?)
    ∧ (∀ (m : NavwarnMessage) (trig : Trig) (f : Feature) (ring : List (ℚ × ℚ)),
        f ∈ m.to_geojson_features trig → f.geometry = some (.polygon ring) →
        ring ≠ [] ∧ ring.head? = ring.getLast?)
    ∧ (∀ r : List (ℚ × ℚ), r ≠ [] →
        (r.head? = r.getLast? → closeRing r = r)
        ∧ (r.head? ≠ r.getLast? →
            closeRing r = r ++ [r.headD (0, 0)] ∧ (closeRing r).length = r.length + 1)
        ∧ (closeRing r).head? = (closeRing r).getLast?) := by
  refine ⟨geojson_geometry_polygon_ring, ?_, ?_⟩
  · intro m trig f ring hf hg
    unfold NavwarnMessage.to_geojson_features at hf
    split at hf
    · rw [List.mem_singleton] at hf
      subst hf
      exact geojson_geometry_polygon_ring m trig 72 ring hg
    · dsimp only at hf
      split at hf
      · rw [List.mem_singleton] at hf
        subst hf
        exact geojson_geometry_polygon_ring m trig 72 ring hg
      · rw [List.mem_filterMap] at hf
        obtain ⟨ig, _, hig⟩ := hf
        by_cases hempty : ig.2 = []
        · rw [if_pos hempty] at hig; simp at hig
        · rw [if_neg hempty] at hig
          injection hig with hig'
          rw [← hig'] at hg
          simp only [Feature.geometry, Option.some.injEq] at hg
          exact splitGeom_polygon hg
  · intro r hr
    rcases r with _ | ⟨x, t⟩
    · exact absurd rfl hr
    refine ⟨?_, ?_, (closeRing_head_last (x :: t) hr).1⟩
    · intro hcl
      simp only [List.head?_cons] at hcl
      exact closeRing_closed hcl.symm
    · intro hop
      simp only [List.head?_cons] at hop
      have hne : (x :: t).getLast? ≠ some x := fun he => hop he.symm
      refine ⟨?_, ?_⟩
      · rw [closeRing_open hne]; simp
      · rw [closeRing_open hne]; simp

/-- Witness for C2 part 3 on a concrete open ring of 3 points and a closed
ring of 4 points. -/
theorem claim_C2_polygon_ring_closure_witness :
    closeRing [(0, 0), (0, 1), (1, 1)] = [(0, 0), (0, 1), (1, 1), (0, 0)]
    ∧ closeRing [(0, 0), (0, 1), (1, 1), (0, 0)] = [(0, 0), (0, 1), (1, 1), (0, 0)] := by
  have h1 := (claim_C2_polygon_ring_closure.2.2 [(0, 0), (0, 1), (1, 1)] (by simp)).2.1
  have h2 := (claim_C2_polygon_ring_closure.2.2 [(0, 0), (0, 1), (1, 1), (0, 0)] (by simp)).1
  constructor
  · have := h1 (by norm_num)
    simpa using this.1
  · exact h2 (by norm_num)

/-- C10: `to_geojson_features` always returns a non-empty list: when the
multi-area split produces no features, it falls back to the single
whole-message feature. -/
theorem claim_C10_features_nonempty (m : NavwarnMessage) (trig : Trig) :
    m.to_geojson_features trig ≠ [] := by
  unfold NavwarnMessage.to_geojson_features
  split
  · simp
  · dsimp only
    split
    · simp
    · assumption

/-! ### Multi-area splitting (claim C1) -/

theorem enum_filterMap_length {β : Type} (G : ℕ × List (ℚ × ℚ) → β) :
    ∀ (l : List (List (ℚ × ℚ))) (n : ℕ),
      ((List.enumFrom n l).filterMap fun ig =>
          if ig.2 = [] then none else some (G ig)).length
        = (l.filter fun x => !x.isEmpty).length := by
  intro l
  induction l with
  | nil => intro n; simp
  | cons a t ih =>
    intro n
    rcases a with _ | ⟨x, xs⟩
    · simp [List.enumFrom, ih]
    · simp [List.enumFrom, ih, List.filter_cons]

/-- The message that refutes C1 as stated: an empty first group followed by
two singleton groups. -/
def msgC1 : NavwarnMessage :=
  { dtg := none, raw_dtg := "", msg_id := none,
    coordinates := [(1, 2), (3, 4)],
    groups := [[], [(1, 2)], [(3, 4)]] }

/-- Counterexample to C1 as stated: `msgC1` has two non-empty groups (more
than one) and its kind is not circle, yet the two emitted features carry
ids `MSG#grp2`, `MSG#grp3` and `group_index` 2, 3 — the enumeration counts
the empty group — where the claim requires `MSG#grp1`, `MSG#grp2` with
indices 1, 2 (1-based over the non-empty groups). -/
theorem claim_C1_counterexample :
    (msgC1.groups.filter fun g => !g.isEmpty).length = 2
    ∧ msgC1.geometry ≠ some "circle"
    ∧ (msgC1.to_geojson_features trigZero).map Feature.id
        = [some "MSG#grp2", some "MSG#grp3"]
    ∧ (msgC1.to_geojson_features trigZero).map (fun f => f.properties.splitInfo)
        = [some (none, 2), some (none, 3)]
    ∧ ([some "MSG#grp2", some "MSG#grp3"] : List (Option String))
        ≠ [some "MSG#grp1", some "MSG#grp2"] := by
  refine ⟨by decide, by decide, ?_, ?_, by decide⟩ <;> decide

/-- C1 (amended): with more than one non-empty coordinate group and a
non-circle kind, `to_geojson_features` returns one feature per non-empty
group in source order, but the 1-based index used in the feature id and in
`group_index` is the group's position in the *full* groups list (empty
groups are skipped yet still counted by the enumeration); `parent_id` is
the message identifier.  When no empty group precedes a non-empty one —
in particular for every message built by `parse_coordinate_groups`, which
never emits empty groups — this coincides with the claim as written. -/
theorem claim_C1_multiarea_split (m : NavwarnMessage) (trig : Trig)
    (hsplit : 1 < (m.groups.filter fun g => !g.isEmpty).length)
    (hnc : m.geometry ≠ some "circle") :
    (m.to_geojson_features trig).map (fun f => (f.id, f.properties.splitInfo))
      = (m.groups.enum.filterMap fun ig =>
          if ig.2 = [] then none
          else some (some (msgIdOrMSG m ++ "#grp" ++ toString (ig.1 + 1)),
            some (m.msg_id, ig.1 + 1)))
    ∧ (m.to_geojson_features trig).length
        = (m.groups.filter fun g => !g.isEmpty).length := by
  have hlen : 1 < m.groups.length := by
    calc 1 < (m.groups.filter fun g => !g.isEmpty).length := hsplit
    _ ≤ m.groups.length := List.length_filter_le _ _
  have hcond : ¬(m.groups = [] ∨ m.groups.length ≤ 1 ∨ m.geometry = some "circle") := by
    push_neg
    refine ⟨?_, by omega, hnc⟩
    intro he; rw [he] at hlen; simp at hlen
  have hfeats_len :
      (m.groups.enum.filterMap fun ig =>
        if ig.2 = [] then none
        else some ({
          id := some (msgIdOrMSG m ++ "#grp" ++ toString (ig.1 + 1))
          geometry := some (splitGeom m
            (hasSub (upperStr m.body) "AREA" || hasSub (upperStr m.body) "BOUNDED" ||
              hasSub (upperStr m.body) "WITHIN" || hasSub (upperStr m.body) "RADIUS") ig.2)
          properties := .split m.msg_id (ig.1 + 1) m.dtg m.raw_dtg m.year m.hazard_type
            m.body } : Feature)).length
        = (m.groups.filter fun g => !g.isEmpty).length := by
    rw [List.enum]
    exact enum_filterMap_length _ m.groups 0
  have hne : (m.groups.enum.filterMap fun ig =>
      if ig.2 = [] then none
      else some ({
        id := some (msgIdOrMSG m ++ "#grp" ++ toString (ig.1 + 1))
        geometry := some (splitGeom m
          (hasSub (upperStr m.body) "AREA" || hasSub (upperStr m.body) "BOUNDED" ||
            hasSub (upperStr m.body) "WITHIN" || hasSub (upperStr m.body) "RADIUS") ig.2)
        properties := .split m.msg_id (ig.1 + 1) m.dtg m.raw_dtg m.year m.hazard_type
          m.body } : Feature)) ≠ [] := by
    intro he
    rw [he] at hfeats_len
    simp at hfeats_len
    omega
  constructor
  · unfold NavwarnMessage.to_geojson_features
    rw [if_neg hcond]
    dsimp only
    rw [if_neg hne, List.map_filterMap]
    apply List.filterMap_congr
    intro ig _
    by_cases h : ig.2 = [] <;> simp [h, FeatureProps.splitInfo]
  · unfold NavwarnMessage.to_geojson_features
    rw [if_neg hcond]
    dsimp only
    rw [if_neg hne]
    exact hfeats_len

/-- A two-group message with identifier `HYDROARC 1/2`, used to witness the
amended C1. -/
def msgC1w : NavwarnMessage :=
  { dtg := none, raw_dtg := "", msg_id := some "HYDROARC 1/2",
    groups := [[(1, 2)], [(3, 4)]] }

/-- Witness for the amended C1 on `msgC1w`. -/
theorem claim_C1_multiarea_split_witness :
    (msgC1w.to_geojson_features trigZero).map (fun f => (f.id, f.properties.splitInfo))
      = (msgC1w.groups.enum.filterMap fun ig =>
          if ig.2 = [] then none
          else some (some (msgIdOrMSG msgC1w ++ "#grp" ++ toString (ig.1 + 1)),
            some (msgC1w.msg_id, ig.1 + 1))) :=
  (claim_C1_multiarea_split msgC1w trigZero (by decide) (by decide)).1

/-! ## `analyze_geometry` (parser.py 592–660)

Circle pattern: `(WITHIN\s+)?(\d+(?:\.\d+)?)\s*(NM|NAUTICAL MILES?|MILES?|MILE)\s+RADIUS`,
searched over the uppercased body. -/

/-- The unit alternation.  Within each alternative the optional `S` is taken
greedily; giving it back can never help, because the following `\s+` cannot
match the letter `S`. -/
def matchUnit (cs : List Char) : Option (List Char) :=
  if lpre "NM".data cs then some (cs.drop 2)
  else if lpre "NAUTICAL MILES".data cs then some (cs.drop 14)
  else if lpre "NAUTICAL MILE".data cs then some (cs.drop 13)
  else if lpre "MILES".data cs then some (cs.drop 5)
  else if lpre "MILE".data cs then some (cs.drop 4)
  else none

/-- One attempt of the circle pattern at the current position, returning the
captured number as (integer digits, optional fraction digits).  A `WITHIN`
prefix without following whitespace fails either way, since the number
cannot start at `W`. -/
def matchRadiusAt (cs : List Char) : Option (List Char × Option (List Char)) :=
  let rest :=
    if lpre "WITHIN".data cs then
      let (ws, r2) := spanPy isSpacePy (cs.drop 6)
      if ws = [] then none else some r2
    else some cs
  match rest with
  | none => none
  | some r =>
    let (ip, r2) := spanPy isDigitPy r
    if ip = [] then none else
    let fracRest : Option (List Char) × List Char :=
      match r2 with
      | '.' :: r2' =>
        let (fp, r3') := spanPy isDigitPy r2'
        -- skipping a failed optional fraction leaves `\s*`+unit on '.',
        -- which fails; continuing from the '.' models that faithfully
        if fp = [] then (none, r2) else (some fp, r3')
      | _ => (none, r2)
    let (_, r4) := spanPy isSpacePy fracRest.2
    match matchUnit r4 with
    | none => none
    | some r5 =>
      let (ws2, r6) := spanPy isSpacePy r5
      if ws2 = [] then none else
      if lpre "RADIUS".data r6 then some (ip, fracRest.1) else none

/-- `re.search` driver for the circle pattern: first matching position. -/
def circleScan : ℕ → List Char → Option (List Char × Option (List Char))
  | 0, _ => none
  | _ + 1, [] => none
  | fuel + 1, c :: t =>
    match matchRadiusAt (c :: t) with
    | some cap => some cap
    | none => circleScan fuel t

def findRadius (cs : List Char) : Option (List Char × Option (List Char)) :=
  circleScan (cs.length + 1) cs

/-- `float()` on the captured number. -/
def numValue (ip : List Char) (fp : Option (List Char)) : ℚ :=
  (natOfDigits ip : ℚ) + (match fp with | none => 0 | some f => fracOfDigits f)

/-- `re.search(r"\b1\.\s", text)`: a `1.` preceded by a word boundary and
followed by one whitespace character. -/
def searchB1 : Option Char → List Char → Bool
  | _, [] => false
  | prev, '1' :: '.' :: s :: t =>
    ((match prev with | none => true | some p => !isWordPy p) && isSpacePy s)
      || searchB1 (some '1') ('.' :: s :: t)
  | _, c :: t => searchB1 (some c) t

/-- `analyze_geometry` (parser.py 592–660): circle first, then multipoint,
polygon by keyword, polygon by closure, linestring, the 4-point fallback,
and the final `point` default.  The radius is only ever set on the circle
path. -/
def analyze_geometry (body : String) (coords : List (ℚ × ℚ)) : String × Option ℚ :=
  let text := upperStr body
  match findRadius text.data, coords with
  | some cap, _ :: _ => ("circle", some (numValue cap.1 cap.2))
  | _, _ =>
    let g1 : Option String :=
      if 2 ≤ coords.length ∧ searchB1 none text.data = true ∧
          (hasSub text "WELL" || hasSub text "BUOY" || hasSub text "HEAD" ||
            hasSub text "PLATFORM" || hasSub text "STATION" || hasSub text "LIGHT" ||
            hasSub text "BEACON") = true
      then some "multipoint" else none
    let g2 := match g1 with
      | some g => some g
      | none =>
        if 3 ≤ coords.length ∧
            (hasSub text "AREA BOUNDED BY" || hasSub text "AREA BOUNDED" ||
              hasSub text "РАЙОНЕ") = true
        then some "polygon" else none
    let g3 := match g2 with
      | some g => some g
      | none =>
        if 4 ≤ coords.length then
          match coords.head?, coords.getLast? with
          | some f, some l =>
            if |f.1 - l.1| < 1 / 10000 ∧ |f.2 - l.2| < 1 / 10000 then some "polygon" else none
          | _, _ => none
        else none
    let g4 := match g3 with
      | some g => some g
      | none =>
        if hasSub text "ALONG LINE" = true ∨ (5 ≤ coords.length ∧ coords.length ≠ 4)
        then some "linestring" else none
    let g5 := match g4 with
      | some g => some g
      | none =>
        if 1 < coords.length then
          if coords.length = 4 ∧ (hasSub text "AREA" && hasSub text "BOUND") = true
          then some "polygon"
          else some (if 2 < coords.length then "linestring" else "point")
        else none
    (g5.getD "point", none)

/-- A message carrying exactly the geometry metadata `from_text` derives
for the given body and coordinates (the other fields do not influence
`geojson_geometry`). -/
def buildGeomMessage (body : String) (coords : List (ℚ × ℚ)) : NavwarnMessage :=
  { dtg := none, raw_dtg := "", msg_id := none,
    coordinates := coords, body := body,
    geometry := some (analyze_geometry body coords).1,
    radius := (analyze_geometry body coords).2 }

/-- Counterexample to C3 as stated: the body `0 NM RADIUS` matches the
radius phrase with captured number `0` and one coordinate exists, so
`analyze_geometry` yields kind `circle` with radius `0`; but `0` is falsy,
so `geojson_geometry` skips the circle branch and serializes a `Point`,
not the tessellated polygon required by the claim. -/
theorem claim_C3_counterexample :
    analyze_geometry "0 NM RADIUS" [(1, 1)] = ("circle", some 0)
    ∧ (buildGeomMessage "0 NM RADIUS" [(1, 1)]).geojson_geometry trigZero 72
        = some (.point (1, 1)) := by
  have hfind : findRadius (upperStr "0 NM RADIUS").data = some (['0'], none) := by decide
  have h0 : natOfDigits ['0'] = 0 := by decide
  have hval : numValue ['0'] none = 0 := by
    simp [numValue, h0]
  have hana : analyze_geometry "0 NM RADIUS" [(1, 1)] = ("circle", some 0) := by
    unfold analyze_geometry
    dsimp only
    rw [hfind]
    dsimp only
    rw [hval]
  refine ⟨hana, ?_⟩
  unfold buildGeomMessage NavwarnMessage.geojson_geometry
  rw [hana]
  dsimp only
  rw [if_neg (by simp)]
  rw [if_neg (by decide), if_neg (by decide), if_neg (by decide)]

/-- C3 (amended): whenever the uppercased body matches the radius phrase
(`"<number> (NM|NAUTICAL MILES?|MILES?) RADIUS"`, optionally preceded by
`WITHIN`) and at least one coordinate exists, `analyze_geometry` returns
kind `circle` with radius equal to the captured number, taking priority
over every other geometry rule; and — provided the captured radius is
nonzero (a zero radius is falsy in `geojson_geometry` and serializes as a
`Point`) — the serialized geometry is a polygon whose single ring has
`max(8, circle_segments) + 1` points with the last point equal to the
first. -/
theorem claim_C3_circle_priority (body : String) (coords : List (ℚ × ℚ)) (trig : Trig)
    (cs : ℕ) (ip : List Char) (fp : Option (List Char))
    (hr : findRadius (upperStr body).data = some (ip, fp))
    (hc : coords ≠ []) :
    analyze_geometry body coords = ("circle", some (numValue ip fp))
    ∧ (numValue ip fp ≠ 0 →
        ∃ ring, (buildGeomMessage body coords).geojson_geometry trig cs = some (.polygon ring)
          ∧ ring.length = max 8 cs + 1 ∧ ring.head? = ring.getLast?) := by
  obtain ⟨c0, rest, rfl⟩ := List.exists_cons_of_ne_nil hc
  have hana : analyze_geometry body (c0 :: rest) = ("circle", some (numValue ip fp)) := by
    unfold analyze_geometry
    dsimp only
    rw [hr]
  refine ⟨hana, fun hr0 => ?_⟩
  unfold buildGeomMessage NavwarnMessage.geojson_geometry
  rw [hana]
  dsimp only
  rw [if_pos ⟨by decide, by simp [hr0], by simp⟩]
  refine ⟨_, rfl, ?_, ?_⟩
  · simp
  · apply base_append_head
    intro he
    have : (max 8 cs) = 0 := by simpa using congrArg List.length he
    omega

/-- Witness for the amended C3: body `WITHIN 5 NM RADIUS` with one
coordinate. -/
theorem claim_C3_circle_priority_witness :
    analyze_geometry "WITHIN 5 NM RADIUS" [(2, 3)]
      = ("circle", some (numValue ['5'] none))
    ∧ (numValue ['5'] none ≠ 0 →
        ∃ ring, (buildGeomMessage "WITHIN 5 NM RADIUS" [(2, 3)]).geojson_geometry trigZero 72
          = some (.polygon ring)
          ∧ ring.length = max 8 72 + 1 ∧ ring.head? = ring.getLast?) :=
  claim_C3_circle_priority "WITHIN 5 NM RADIUS" [(2, 3)] trigZero 72 ['5'] none
    (by decide) (by decide)

/-! ## Cancellation extraction (parser.py 33–41, 95–103, 401–426, 756–781) -/

def isUpperAZ (c : Char) : Bool := 'A' ≤ c && c ≤ 'Z'

/-- `\d+/\d+`: two greedy digit runs around a slash, returning the token
and the rest. -/
def slashTarget (r : List Char) : Option (List Char × List Char) :=
  let (d1, r1) := spanPy isDigitPy r
  if d1 = [] then none else
  match r1 with
  | '/' :: r2 =>
    let (d2, r3) := spanPy isDigitPy r2
    if d2 = [] then none else some (d1 ++ '/' :: d2, r3)
  | _ => none

/-- Tails of the three `THIS (?:MSG|MESSAGE) …` alternatives of
`CANCEL_PATTERN`, tried in source order.  In the last alternative the
`\d{4}` year branch is dead: whenever four digits are present the `\d{2}`
branch already matches (nothing follows the year in the pattern). -/
def matchDTGTail (r : List Char) : Option (List Char × List Char) :=
  let t3 : Option (List Char × List Char) :=
    match exactRun isDigitPy 6 r with
    | some (d6, 'Z' :: ' ' :: r4) =>
      match exactRun isUpperAZ 3 r4 with
      | some (mon, ' ' :: r5) =>
        match exactRun isDigitPy 2 r5 with
        | some (yy, r6) => some (d6 ++ 'Z' :: ' ' :: (mon ++ ' ' :: yy), r6)
        | none => none
      | _ => none
    | _ => none
  match t3 with
  | some res => some res
  | none =>
    let t4 : Option (List Char × List Char) :=
      match exactRun isDigitPy 6 r with
      | some (d6, ' ' :: 'U' :: 'T' :: 'C' :: ' ' :: r4) =>
        match exactRun isUpperAZ 3 r4 with
        | some (mon, ' ' :: r5) =>
          match exactRun isDigitPy 2 r5 with
          | some (yy, r6) => some (d6 ++ ' ' :: 'U' :: 'T' :: 'C' :: ' ' :: (mon ++ ' ' :: yy), r6)
          | none => none
        | _ => none
      | _ => none
    match t4 with
    | some res => some res
    | none =>
      match exactRun isDigitPy 2 r with
      | some (dd, ' ' :: r4) =>
        match exactRun isUpperAZ 3 r4 with
        | some (mon, ' ' :: r5) =>
          match exactRun isDigitPy 2 r5 with
          | some (yy, r6) => some (dd ++ ' ' :: (mon ++ ' ' :: yy), r6)
          | none => none
        | _ => none
      | _ => none

/-- The alternatives of `CANCEL_PATTERN` other than the `HYDROARC` one. -/
def cancelAlt2Plus (r : List Char) : Option (List Char × List Char) :=
  match slashTarget r with
  | some res => some res
  | none =>
    if lpre "THIS ".data r then
      let r1 := r.drop 5
      let word : Option (List Char × List Char) :=
        if lpre "MSG ".data r1 then some ("MSG".data, r1.drop 4)
        else if lpre "MESSAGE ".data r1 then some ("MESSAGE".data, r1.drop 8)
        else none
      match word with
      | some (w, r2) =>
        match matchDTGTail r2 with
        | some (tok, rest) => some ("THIS ".data ++ w ++ ' ' :: tok, rest)
        | none => none
      | none => none
    else none

/-- One `CANCEL_PATTERN` attempt: leading `CANCEL `, then the target
alternation; the captured group is the target only. -/
def matchCancelAt (cs : List Char) : Option (List Char × List Char) :=
  if lpre "CANCEL ".data cs then
    let r := cs.drop 7
    if lpre "HYDROARC ".data r then
      match slashTarget (r.drop 9) with
      | some (tok, rest) => some ("HYDROARC ".data ++ tok, rest)
      | none => cancelAlt2Plus r
    else cancelAlt2Plus r
  else none

def cancelScan : ℕ → List Char → List String
  | 0, _ => []
  | _ + 1, [] => []
  | fuel + 1, c :: t =>
    match matchCancelAt (c :: t) with
    | some (tok, rest) => (⟨tok⟩ : String) :: cancelScan fuel rest
    | none => cancelScan fuel t

/-- `CANCEL_PATTERN.findall(body)`. -/
def cancelFindall (cs : List Char) : List String := cancelScan (cs.length + 1) cs

/-- One `PRIP_CANCEL_PATTERN` attempt:
`ОТМ (ЭТОТ НР \d{6}Z [A-Z]{3,5}|\d+/\d+)` (the `[A-Z]` class is ASCII-only
even under `re.IGNORECASE`-less matching, so Cyrillic month names never
match the first alternative). -/
def matchOtmAt (cs : List Char) : Option (List Char × List Char) :=
  if lpre "ОТМ ".data cs then
    let r := cs.drop 4
    let alt1 : Option (List Char × List Char) :=
      if lpre "ЭТОТ НР ".data r then
        match exactRun isDigitPy 6 (r.drop 8) with
        | some (d6, 'Z' :: ' ' :: r3) =>
          let (run, after) := spanPy isUpperAZ r3
          if 3 ≤ run.length then
            some ("ЭТОТ НР ".data ++ d6 ++ 'Z' :: ' ' :: run.take 5,
              run.drop 5 ++ after)
          else none
        | _ => none
      else none
    match alt1 with
    | some res => some res
    | none => slashTarget r
  else none

def otmScan : ℕ → List Char → List String
  | 0, _ => []
  | _ + 1, [] => []
  | fuel + 1, c :: t =>
    match matchOtmAt (c :: t) with
    | some (tok, rest) => (⟨tok⟩ : String) :: otmScan fuel rest
    | none => otmScan fuel t

/-- `PRIP_CANCEL_PATTERN.findall(body)`. -/
def otmFindall (cs : List Char) : List String := otmScan (cs.length + 1) cs

/-- Python `str.splitlines` over `\n`, `\r`, `\r\n` (no trailing empty
line when the text ends with a line break). -/
def slGo : List Char → List Char → List (List Char)
  | cur, [] => [cur.reverse]
  | cur, '\r' :: '\n' :: t => if t = [] then [cur.reverse] else cur.reverse :: slGo [] t
  | cur, '\r' :: t => if t = [] then [cur.reverse] else cur.reverse :: slGo [] t
  | cur, '\n' :: t => if t = [] then [cur.reverse] else cur.reverse :: slGo [] t
  | cur, c :: t => slGo (c :: cur) t

def splitLinesPy (cs : List Char) : List (List Char) :=
  if cs = [] then [] else slGo [] cs

/-- Word-boundary check after a token (`\b`). -/
def boundaryAfterOk : List Char → Bool
  | [] => true
  | c :: _ => !isWordPy c

/-- `findall(r"\b(\d+/\d+)\b", line)`: a slash token delimited by word
boundaries; `prev` is the character before the current position. -/
def slashScan : ℕ → Option Char → List Char → List String
  | 0, _, _ => []
  | _ + 1, _, [] => []
  | fuel + 1, prev, c :: t =>
    let pOk : Bool := match prev with | none => true | some p => !isWordPy p
    match (if pOk then slashTarget (c :: t) else none) with
    | some (tok, rest) =>
      if boundaryAfterOk rest then
        (⟨tok⟩ : String) :: slashScan fuel (some (tok.getLastD '0')) rest
      else slashScan fuel (some c) t
    | none => slashScan fuel (some c) t

def slashFindall (cs : List Char) : List String := slashScan (cs.length + 1) none cs

/-- One step of the bare-token heuristic loop: skip when an existing entry
ends with the token or the token is already present, else append. -/
def tokStep (acc : List String) (m : String) : List String :=
  if acc.any (fun c => endsWithPy c m) then acc
  else if m ∈ acc then acc
  else acc ++ [m]

/-- The state of `parse_cancellations` before the self-reference filter:
structured captures first, then the per-line bare-token heuristic. -/
def cancel_prefilter (body : String) : List String :=
  (splitLinesPy body.data).foldl
    (fun acc line =>
      if hasSubList "CANCEL".data (line.map upperPy) then
        (slashFindall line).foldl tokStep acc
      else acc)
    (cancelFindall body.data)

/-- `re.search(r"HYDROARC (\d+/\d+)", body)`: first occurrence, capturing
the `n/yy` suffix. -/
def hydroAt (cs : List Char) : Option String :=
  if lpre "HYDROARC ".data cs then
    (slashTarget (cs.drop 9)).map fun pr => (⟨pr.1⟩ : String)
  else none

def hydroScan : ℕ → List Char → Option String
  | 0, _ => none
  | _ + 1, [] => none
  | fuel + 1, c :: t =>
    match hydroAt (c :: t) with
    | some s => some s
    | none => hydroScan fuel t

def findHydroSuffix (cs : List Char) : Option String := hydroScan (cs.length + 1) cs

/-- `parse_cancellations` (parser.py 401–426). -/
def parse_cancellations (body : String) : List String :=
  match findHydroSuffix body.data with
  | some sfx => (cancel_prefilter body).filter (fun c => c != sfx)
  | none => cancel_prefilter body

/-- `prip_parse_cancellations` (parser.py 756–781); the self-reference
filter is commented out in the source. -/
def prip_parse_cancellations (body : String) : List String :=
  (splitLinesPy body.data).foldl
    (fun acc line =>
      if hasSubList "ОТМ".data (line.map upperPy) then
        (slashFindall line).foldl tokStep acc
      else acc)
    (otmFindall body.data)

example : cancelFindall "2. CANCEL HYDROARC 134/25.\n3. CANCEL THIS MSG 222359Z AUG 25.".data
    = ["HYDROARC 134/25", "THIS MSG 222359Z AUG 25"] := by decide
example : parse_cancellations "CANCEL 47/18" = ["47/18"] := by decide
example : prip_parse_cancellations "2. ОТМ 113/21 И ЭТОТ ПУНКТ=" = ["113/21"] := by decide

/-- One `tokStep` either keeps the accumulator or appends one fresh token. -/
theorem tokStep_extend (start : List String) (m : String) :
    ∃ added, tokStep start m = start ++ added ∧ added.Nodup ∧ ∀ x ∈ added, x ∉ start := by
  unfold tokStep
  split
  · exact ⟨[], by simp, List.nodup_nil, by simp⟩
  · split
    · exact ⟨[], by simp, List.nodup_nil, by simp⟩
    · rename_i h1 h2
      exact ⟨[m], rfl, List.nodup_singleton m, by simpa using h2⟩

/-- Folding steps that only append fresh elements appends a fresh,
duplicate-free block. -/
theorem fold_extend_invariant {σ : Type} (f : List String → σ → List String)
    (hf : ∀ start x, ∃ added, f start x = start ++ added ∧ added.Nodup ∧ ∀ m ∈ added, m ∉ start) :
    ∀ (l : List σ) (start : List String),
      ∃ added, l.foldl f start = start ++ added ∧ added.Nodup ∧ ∀ m ∈ added, m ∉ start := by
  intro l
  induction l with
  | nil => intro start; exact ⟨[], by simp, List.nodup_nil, by simp⟩
  | cons x t ih =>
    intro start
    obtain ⟨a1, e1, n1, f1⟩ := hf start x
    obtain ⟨a2, e2, n2, f2⟩ := ih (start ++ a1)
    refine ⟨a1 ++ a2, ?_, ?_, ?_⟩
    · rw [List.foldl_cons, e1, e2, List.append_assoc]
    · refine n1.append n2 ?_
      intro y hy1 hy2
      exact f2 y hy2 (List.mem_append.mpr (Or.inr hy1))
    · intro m hm
      rcases List.mem_append.mp hm with hm | hm
      · exact f1 m hm
      · intro hs
        exact f2 m hm (List.mem_append.mpr (Or.inl hs))

theorem tokFold_extend (toks : List String) (start : List String) :
    ∃ added, toks.foldl tokStep start = start ++ added ∧ added.Nodup ∧
      ∀ m ∈ added, m ∉ start :=
  fold_extend_invariant tokStep tokStep_extend toks start

theorem lineFold_extend (needle : List Char) (lines : List (List Char)) (start : List String) :
    ∃ added,
      lines.foldl (fun acc line =>
        if hasSubList needle (line.map upperPy) then
          (slashFindall line).foldl tokStep acc
        else acc) start
      = start ++ added ∧ added.Nodup ∧ ∀ m ∈ added, m ∉ start := by
  refine fold_extend_invariant _ (fun s line => ?_) lines start
  by_cases h : hasSubList needle (line.map upperPy) = true
  · simpa [h] using tokFold_extend (slashFindall line) s
  · rw [Bool.not_eq_true] at h
    exact ⟨[], by simp [h], List.nodup_nil, by simp⟩

/-- Counterexample to C5 as stated: the structured grammar can capture the
same target twice, and the duplicates survive (the dedup guard applies only
to the bare-token heuristic additions). -/
theorem claim_C5_counterexample :
    parse_cancellations "CANCEL 1/2 CANCEL 1/2" = ["1/2", "1/2"]
    ∧ ¬ (parse_cancellations "CANCEL 1/2 CANCEL 1/2").Nodup := by
  constructor <;> decide

/-- C5 (amended): the returned list is the structured-grammar captures in
match order (which may contain duplicates and need not follow
first-occurrence order of the bare tokens), followed by the bare-token
heuristic additions, which are duplicate-free and never repeat (even as a
suffix of) an existing entry; `parse_cancellations` then removes every
entry equal to the `n/yy` suffix of the first `HYDROARC n/yy` occurrence
in the body (the self-reference guard applies only to HYDROARC
identifiers), while `prip_parse_cancellations` performs no such removal. -/
theorem claim_C5_cancellation_lists :
    (∀ (body : String) (sfx : String),
        findHydroSuffix body.data = some sfx → sfx ∉ parse_cancellations body)
    ∧ (∀ body : String, ∃ added,
        cancel_prefilter body = cancelFindall body.data ++ added
        ∧ added.Nodup ∧ ∀ m ∈ added, m ∉ cancelFindall body.data)
    ∧ (∀ body : String, ∃ added,
        prip_parse_cancellations body = otmFindall body.data ++ added
        ∧ added.Nodup ∧ ∀ m ∈ added, m ∉ otmFindall body.data) := by
  refine ⟨?_, ?_, ?_⟩
  · intro body sfx hs hmem
    unfold parse_cancellations at hmem
    rw [hs] at hmem
    have := List.of_mem_filter hmem
    simp at this
  · intro body
    exact lineFold_extend "CANCEL".data (splitLinesPy body.data) (cancelFindall body.data)
  · intro body
    exact lineFold_extend "ОТМ".data (splitLinesPy body.data) (otmFindall body.data)

/-- Witness for the amended C5: the self-reference suffix `5/25` of
`HYDROARC 5/25` is removed from the result. -/
theorem claim_C5_cancellation_lists_witness :
    "5/25" ∉ parse_cancellations "HYDROARC 5/25 CANCEL 5/25" :=
  claim_C5_cancellation_lists.1 "HYDROARC 5/25 CANCEL 5/25" "5/25" (by decide)

/-! ## Cancellation-status evaluator (archive_cancelled_messages.py)

`issued_dtg` (ISO-8601 parsing) is not constrained by any claim and is
omitted from the result model; everything else of
`evaluate_navwarn_cancellation` is embedded. -/

/-- Chronological key; field bounds of valid datetimes (month ≤ 12,
day ≤ 31, hour ≤ 23, minute ≤ 59) make it order-isomorphic to the
lexicographic datetime order used by Python. -/
def dtKey (d : DT) : ℕ :=
  ((((d.year * 13 + d.month) * 32 + d.day) * 24 + d.hour) * 60 + d.minute)

def dtLE (a b : DT) : Prop := dtKey a ≤ dtKey b

def dtLT (a b : DT) : Prop := dtKey a < dtKey b

instance : DecidableRel dtLE := fun _ _ => Nat.decLe _ _

instance : DecidableRel dtLT := fun _ _ => Nat.decLt _ _

instance : IsTotal DT dtLE := ⟨fun a b => Nat.le_total (dtKey a) (dtKey b)⟩

instance : IsTrans DT dtLE := ⟨fun _ _ _ => Nat.le_trans⟩

/-- `str.strip()`. -/
def stripPy (cs : List Char) : List Char :=
  ((cs.dropWhile isSpacePy).reverse.dropWhile isSpacePy).reverse

/-- The `MONTHS` table. -/
def monthNum (s : List Char) : Option ℕ :=
  if s = "JAN".data then some 1 else if s = "FEB".data then some 2
  else if s = "MAR".data then some 3 else if s = "APR".data then some 4
  else if s = "MAY".data then some 5 else if s = "JUN".data then some 6
  else if s = "JUL".data then some 7 else if s = "AUG".data then some 8
  else if s = "SEP".data then some 9 else if s = "OCT".data then some 10
  else if s = "NOV".data then some 11 else if s = "DEC".data then some 12
  else none

def isLeap (y : ℕ) : Bool := (y % 4 = 0 && y % 100 ≠ 0) || y % 400 = 0

def daysInMonth (y m : ℕ) : ℕ :=
  if m = 2 then (if isLeap y then 29 else 28)
  else if m = 4 ∨ m = 6 ∨ m = 9 ∨ m = 11 then 30
  else 31

/-- `datetime(year, month, day, hour, minute)`: `None` on `ValueError`. -/
def mkDT (y mo d h mi : ℕ) : Option DT :=
  if 1 ≤ y ∧ 1 ≤ d ∧ d ≤ daysInMonth y mo ∧ h ≤ 23 ∧ mi ≤ 59 then
    some ⟨y, mo, d, h, mi⟩
  else none

/-- `parse_navwarn_dtg` (archive 36–72):
`^(\d{2})(\d{2})(\d{2})Z\s+([A-Z]{3})\s+(\d{2}|\d{4})$` over the stripped,
uppercased input; two-digit years map 00–79 to 2000s, 80–99 to 1900s. -/
def parse_navwarn_dtg (dtg_str : String) : Option DT :=
  let s := (stripPy dtg_str.data).map upperPy
  match exactRun isDigitPy 2 s with
  | some (dd, r1) =>
    match exactRun isDigitPy 2 r1 with
    | some (hh, r2) =>
      match exactRun isDigitPy 2 r2 with
      | some (mi, r3) =>
        match r3 with
        | 'Z' :: r4 =>
          let (ws1, r5) := spanPy isSpacePy r4
          if ws1 = [] then none else
          match exactRun isUpperAZ 3 r5 with
          | some (mon, r6) =>
            let (ws2, r7) := spanPy isSpacePy r6
            if ws2 = [] then none else
            let yearO : Option ℕ :=
              match exactRun isDigitPy 2 r7 with
              | some (y2, []) =>
                let yy := natOfDigits y2
                some (if yy ≤ 79 then 2000 + yy else 1900 + yy)
              | _ =>
                match exactRun isDigitPy 4 r7 with
                | some (y4, []) => some (natOfDigits y4)
                | _ => none
            match monthNum mon, yearO with
            | some mo, some y => mkDT y mo (natOfDigits dd) (natOfDigits hh) (natOfDigits mi)
            | _, _ => none
          | none => none
        | _ => none
      | none => none
    | none => none
  | none => none

def isAsciiLetter (c : Char) : Bool := ('A' ≤ c && c ≤ 'Z') || ('a' ≤ c && c ≤ 'z')

/-- One attempt of `(\d{2}\d{2}\d{2}Z\s+[A-Z]{3}\s+\d{2,4})` with
`re.IGNORECASE`: the year run is greedy with at most 4 and at least 2
digits taken. -/
def matchDtgAt (cs : List Char) : Option (List Char × List Char) :=
  match exactRun isDigitPy 6 cs with
  | some (d6, z :: r1) =>
    if z = 'Z' ∨ z = 'z' then
      let (ws1, r2) := spanPy isSpacePy r1
      if ws1 = [] then none else
      match exactRun isAsciiLetter 3 r2 with
      | some (mon, r3) =>
        let (ws2, r4) := spanPy isSpacePy r3
        if ws2 = [] then none else
        let (run, after) := spanPy isDigitPy r4
        if 2 ≤ run.length then
          some (d6 ++ z :: (ws1 ++ mon ++ ws2 ++ run.take 4), run.drop 4 ++ after)
        else none
      | none => none
    else none
  | _ => none

def dtgScan : ℕ → List Char → List String
  | 0, _ => []
  | _ + 1, [] => []
  | fuel + 1, c :: t =>
    match matchDtgAt (c :: t) with
    | some (tok, rest) => (⟨tok⟩ : String) :: dtgScan fuel rest
    | none => dtgScan fuel t

def dtgFindall (cs : List Char) : List String := dtgScan (cs.length + 1) cs

/-- `extract_dtgs_from_text` (archive 101–115). -/
def extract_dtgs_from_text (text : String) : List DT :=
  (dtgFindall text.data).filterMap parse_navwarn_dtg

/-- First-occurrence dedup driver (`seen` set + append). -/
def dedupGo : List DT → List DT → List DT
  | _, [] => []
  | seen, x :: xs => if x ∈ seen then dedupGo seen xs else x :: dedupGo (x :: seen) xs

def dedupFirst (l : List DT) : List DT := dedupGo [] l

/-- The serializer-shaped properties the evaluator reads (`isinstance`
checks of the source restrict to strings / lists of strings, which is the
shape modelled here). -/
structure EvalProps where
  dtg : Option String := none
  raw_dtg : Option String := none
  cancellations : Option (List String) := none
  body : Option String := none

/-- `extract_cancellation_dtgs` (archive 154–177): DTGs from the
cancellation strings and the body, sorted and deduplicated. -/
def extract_cancellation_dtgs (props : EvalProps) : List DT :=
  let fromCancels := match props.cancellations with
    | some items => items.foldl (fun acc it => acc ++ extract_dtgs_from_text it) []
    | none => []
  let results := fromCancels ++ (match props.body with
    | some b => extract_dtgs_from_text b
    | none => [])
  dedupFirst (List.insertionSort dtLE results)

/-- One attempt of `\b(\d{1,4}/\d{2,4})\b`: bounded digit runs around a
slash, word boundaries on both sides (a longer digit run cannot match,
since backtracking would place `/` or `\b` on a digit). -/
def matchRefAt (prevOk : Bool) (cs : List Char) : Option (List Char × List Char) :=
  if !prevOk then none else
  let (d1, r1) := spanPy isDigitPy cs
  if d1 = [] ∨ 4 < d1.length then none else
  match r1 with
  | '/' :: r2 =>
    let (d2, r3) := spanPy isDigitPy r2
    if 2 ≤ d2.length ∧ d2.length ≤ 4 ∧ boundaryAfterOk r3 = true then
      some (d1 ++ '/' :: d2, r3)
    else none
  | _ => none

def refScan : ℕ → Option Char → List Char → List String
  | 0, _, _ => []
  | _ + 1, _, [] => []
  | fuel + 1, prev, c :: t =>
    let pOk : Bool := match prev with | none => true | some p => !isWordPy p
    match matchRefAt pOk (c :: t) with
    | some (tok, rest) => (⟨tok⟩ : String) :: refScan fuel (some (tok.getLastD '0')) rest
    | none => refScan fuel (some c) t

def refFindall (cs : List Char) : List String := refScan (cs.length + 1) none cs

def dedupStrGo : List String → List String → List String
  | _, [] => []
  | seen, x :: xs => if x ∈ seen then dedupStrGo seen xs else x :: dedupStrGo (x :: seen) xs

/-- `extract_cancellation_refs` (archive 117–136). -/
def extract_cancellation_refs (text : String) : List String :=
  dedupStrGo [] (refFindall (upperStr text).data)

/-- `extract_cancellation_references` (archive 179–201). -/
def extract_cancellation_references (props : EvalProps) : List String :=
  let refs := (match props.cancellations with
    | some items => items.foldl (fun acc it => acc ++ extract_cancellation_refs it) []
    | none => []) ++
    (match props.body with
    | some b => extract_cancellation_refs b
    | none => [])
  dedupStrGo [] refs

/-- `normalize_ref_year` (archive 138–152) with the default century 2000:
`^(\d{1,4})/(\d{2}|\d{4})$`; two-digit years 00–79 map to 2000s, the rest
to 1900s; anything else is returned unchanged. -/
def normalize_ref_year (ref : String) : String :=
  let (d1, r1) := spanPy isDigitPy ref.data
  if d1 = [] ∨ 4 < d1.length then ref else
  match r1 with
  | '/' :: r2 =>
    let (y, r3) := spanPy isDigitPy r2
    if r3 = [] ∧ y.length = 2 then
      let yy := natOfDigits y
      let year := if yy ≤ 79 then 2000 + yy else 1900 + yy
      ⟨d1 ++ '/' :: (toString year).data⟩
    else ref
  | _ => ref

structure EvalFeature where
  id : Option String := none
  properties : EvalProps := {}

/-- A summary record of `evaluate_navwarn_cancellation` (archive 223–265);
`issued_dtg` omitted (see section comment). -/
structure EvalResult where
  id : Option String
  cancellation_times : List DT
  cancellation_refs : List String
  is_cancelled : Bool
  next_cancellation : Option DT

/-- `evaluate_navwarn_cancellation` (archive 223–265) at evaluation
instant `now`. -/
def evaluate_navwarn_cancellation (feature : EvalFeature) (now : DT) : EvalResult :=
  let props := feature.properties
  let cancellation_times := extract_cancellation_dtgs props
  let refsNorm := (extract_cancellation_references props).map normalize_ref_year
  let sorted := List.insertionSort dtLE cancellation_times
  { id := feature.id
    cancellation_times := sorted
    cancellation_refs := refsNorm
    is_cancelled := sorted.any fun t => decide (dtLE t now)
    next_cancellation := (sorted.filter fun t => decide (dtLT now t)).head? }

theorem dedupGo_fresh_nodup :
    ∀ (l seen : List DT), (∀ x ∈ dedupGo seen l, x ∉ seen) ∧ (dedupGo seen l).Nodup := by
  intro l
  induction l with
  | nil => intro seen; simp [dedupGo]
  | cons x xs ih =>
    intro seen
    by_cases hx : x ∈ seen
    · simpa [dedupGo, hx] using ih seen
    · obtain ⟨h1, h2⟩ := ih (x :: seen)
      refine ⟨?_, ?_⟩
      · intro y hy
        rw [dedupGo, if_neg hx] at hy
        rcases List.mem_cons.mp hy with hy | hy
        · subst hy; exact hx
        · intro hys
          exact h1 y hy (List.mem_cons.mpr (Or.inr hys))
      · rw [dedupGo, if_neg hx]
        refine List.nodup_cons.mpr ⟨?_, h2⟩
        intro hxmem
        exact h1 x hxmem (List.mem_cons_self x seen)

theorem dedupGo_sublist : ∀ (l seen : List DT), List.Sublist (dedupGo seen l) l := by
  intro l
  induction l with
  | nil => intro seen; simp [dedupGo]
  | cons x xs ih =>
    intro seen
    by_cases hx : x ∈ seen
    · rw [dedupGo, if_pos hx]
      exact (ih seen).cons x
    · rw [dedupGo, if_neg hx]
      exact (ih (x :: seen)).cons₂ x

/-- C6: the evaluator returns its cancellation times sorted ascending and
de-duplicated; `is_cancelled` holds iff some extracted absolute
cancellation timestamp is ≤ `now`; `next_cancellation` is the earliest
extracted timestamp strictly greater than `now` and is absent exactly when
none exists; in particular a record with no absolute cancellation DTG
(e.g. only a bare `n/yy` cross-reference) is never marked cancelled. -/
theorem claim_C6_cancellation_evaluator (feat : EvalFeature) (now : DT) :
    List.Sorted dtLE (evaluate_navwarn_cancellation feat now).cancellation_times
    ∧ (evaluate_navwarn_cancellation feat now).cancellation_times.Nodup
    ∧ (∀ t, t ∈ (evaluate_navwarn_cancellation feat now).cancellation_times ↔
        t ∈ extract_cancellation_dtgs feat.properties)
    ∧ ((evaluate_navwarn_cancellation feat now).is_cancelled = true ↔
        ∃ t ∈ (evaluate_navwarn_cancellation feat now).cancellation_times, dtLE t now)
    ∧ (∀ t, (evaluate_navwarn_cancellation feat now).next_cancellation = some t →
        t ∈ (evaluate_navwarn_cancellation feat now).cancellation_times ∧ dtLT now t ∧
          ∀ u ∈ (evaluate_navwarn_cancellation feat now).cancellation_times,
            dtLT now u → dtLE t u)
    ∧ ((evaluate_navwarn_cancellation feat now).next_cancellation = none ↔
        ∀ u ∈ (evaluate_navwarn_cancellation feat now).cancellation_times, ¬ dtLT now u)
    ∧ (extract_cancellation_dtgs feat.properties = [] →
        (evaluate_navwarn_cancellation feat now).is_cancelled = false) := by
  have hct : (evaluate_navwarn_cancellation feat now).cancellation_times
      = List.insertionSort dtLE (extract_cancellation_dtgs feat.properties) := rfl
  have hic : (evaluate_navwarn_cancellation feat now).is_cancelled
      = (List.insertionSort dtLE (extract_cancellation_dtgs feat.properties)).any
          (fun t => decide (dtLE t now)) := rfl
  have hnc : (evaluate_navwarn_cancellation feat now).next_cancellation
      = ((List.insertionSort dtLE (extract_cancellation_dtgs feat.properties)).filter
          (fun t => decide (dtLT now t))).head? := rfl
  have hperm := List.perm_insertionSort dtLE (extract_cancellation_dtgs feat.properties)
  have hsorted := List.sorted_insertionSort dtLE (extract_cancellation_dtgs feat.properties)
  refine ⟨?_, ?_, ?_, ?_, ?_, ?_, ?_⟩
  · rw [hct]; exact hsorted
  · rw [hct]
    refine hperm.nodup_iff.mpr ?_
    exact (dedupGo_fresh_nodup (List.insertionSort dtLE _) []).2
  · intro t
    rw [hct]
    exact ⟨fun h => hperm.mem_iff.mp h, fun h => hperm.mem_iff.mpr h⟩
  · rw [hic, hct]
    simp [List.any_eq_true]
  · intro t hn
    rw [hnc] at hn
    rw [hct]
    cases hfut : (List.insertionSort dtLE (extract_cancellation_dtgs feat.properties)).filter
        (fun t => decide (dtLT now t)) with
    | nil => rw [hfut] at hn; simp at hn
    | cons a l' =>
      rw [hfut] at hn
      simp only [List.head?_cons, Option.some.injEq] at hn
      subst hn
      have hamem : a ∈ (List.insertionSort dtLE (extract_cancellation_dtgs feat.properties)).filter
          (fun t => decide (dtLT now t)) := by
        rw [hfut]; exact List.mem_cons_self _ _
      obtain ⟨hmem, hlt⟩ := List.mem_filter.mp hamem
      refine ⟨hmem, by simpa using hlt, ?_⟩
      intro u hu hltu
      have hufilt : u ∈ (List.insertionSort dtLE (extract_cancellation_dtgs feat.properties)).filter
          (fun t => decide (dtLT now t)) :=
        List.mem_filter.mpr ⟨hu, by simpa using hltu⟩
      rw [hfut] at hufilt
      rcases List.mem_cons.mp hufilt with hu' | hu'
      · subst hu'; exact Nat.le_refl _
      · have hsf := hsorted.filter (fun t => decide (dtLT now t))
        rw [hfut] at hsf
        exact List.rel_of_sorted_cons hsf u hu'
  · rw [hnc, hct]
    rw [List.head?_eq_none_iff, List.filter_eq_nil_iff]
    simp
  · intro hempty
    rw [hic, hempty]
    simp [List.insertionSort]

/-- Witness for C6 on a feature cancelled by `THIS MSG 222359Z AUG 25`,
evaluated at 2026-01-01T00:00Z. -/
theorem claim_C6_cancellation_evaluator_witness :
    (evaluate_navwarn_cancellation
      { id := some "HYDROARC 136/25",
        properties := { cancellations := some ["THIS MSG 222359Z AUG 25"] } }
      ⟨2026, 1, 1, 0, 0⟩).is_cancelled = true :=
  (claim_C6_cancellation_evaluator
    { id := some "HYDROARC 136/25",
      properties := { cancellations := some ["THIS MSG 222359Z AUG 25"] } }
    ⟨2026, 1, 1, 0, 0⟩).2.2.2.1.mpr
    ⟨⟨2025, 8, 22, 23, 59⟩, by decide, by decide⟩

/-! ## PRIP parsing (parser.py 84–87, 267–296, 379–398, 432–589, 739–753) -/

/-- Case-insensitive literal match (`re.IGNORECASE`). -/
def lpreCI : List Char → List Char → Bool
  | [], _ => true
  | _ :: _, [] => false
  | a :: as, b :: bs => lowerPy a = lowerPy b && lpreCI as bs

/-- The PRIP area alternation `(МУРМАНСК|АРХАНГЕЛЬСК|ЗАПАД)`; the capture
is the original-case slice of the input. -/
def pripArea (r : List Char) : Option (List Char × List Char) :=
  if lpreCI "МУРМАНСК".data r then some (r.take 8, r.drop 8)
  else if lpreCI "АРХАНГЕЛЬСК".data r then some (r.take 11, r.drop 11)
  else if lpreCI "ЗАПАД".data r then some (r.take 5, r.drop 5)
  else none

/-- `(.+)?`: greedy run of non-newline characters, or absent. -/
def pripC (r : List Char) : Option (List Char) :=
  match r with
  | [] => none
  | c :: _ => if c = '\n' then none else some (r.takeWhile (fun ch => ch ≠ '\n'))

/-- `\s([ \d]+)?\s(.+)?` after the optional chart keyword: the greedy
`[ \d]+` run gives characters back one at a time until the following `\s`
can match (the class contains the space, so give-back succeeds exactly
when the run's tail character is a space). -/
def pripTryB (run after : List Char) : ℕ → Option (Option (List Char) × Option (List Char))
  | k + 1 =>
    match run.drop (k + 1) ++ after with
    | c :: rest' =>
      if isSpacePy c then some (some (run.take (k + 1)), pripC rest')
      else pripTryB run after k
    | [] => pripTryB run after k
  | 0 =>
    match run ++ after with
    | c :: rest' => if isSpacePy c then some (none, pripC rest') else none
    | [] => none

def pripTail2 (r : List Char) : Option (Option (List Char) × Option (List Char)) :=
  match r with
  | c :: r2 =>
    if isSpacePy c then
      let (run, after) := spanPy (fun ch => ch = ' ' || isDigitPy ch) r2
      pripTryB run after run.length
    else none
  | [] => none

/-- `\s(?:КАРТЫ|КАРТА)?\s([ \d]+)?\s(.+)?`, with the optional chart word
tried in source order and full backtracking into the tail. -/
def pripAfterYear (r : List Char) : Option (Option (List Char) × Option (List Char)) :=
  match r with
  | c :: r2 =>
    if isSpacePy c then
      match (if lpreCI "КАРТЫ".data r2 then pripTail2 (r2.drop 5) else none) with
      | some res => some res
      | none =>
        match (if lpreCI "КАРТА".data r2 then pripTail2 (r2.drop 5) else none) with
        | some res => some res
        | none => pripTail2 r2
    else none
  | [] => none

/-- `(group4 or "").split()`. -/
def swGo : List Char → List Char → List String
  | cur, [] => if cur = [] then [] else [(⟨cur.reverse⟩ : String)]
  | cur, c :: t =>
    if isSpacePy c then
      (if cur = [] then swGo [] t else (⟨cur.reverse⟩ : String) :: swGo [] t)
    else swGo (c :: cur) t

def splitWs (cs : List Char) : List String := swGo [] cs

/-- `parse_prip_header` (parser.py 739–753):
`ПРИП (МУРМАНСК|АРХАНГЕЛЬСК|ЗАПАД) (\d+)/(\d{2})\s(?:КАРТЫ|КАРТА)?\s([ \d]+)?\s(.+)?`
with `re.IGNORECASE`, anchored at the start; no match yields the all-absent
tuple (`none`). -/
def parse_prip_header (headertext : String) :
    Option (String × String × String × List String × Option String) :=
  let cs := headertext.data
  if lpreCI "ПРИП ".data cs then
    match pripArea (cs.drop 5) with
    | some (areaTxt, r1) =>
      match r1 with
      | ' ' :: r2 =>
        let (d1, r3) := spanPy isDigitPy r2
        if d1 = [] then none else
        match r3 with
        | '/' :: r4 =>
          match exactRun isDigitPy 2 r4 with
          | some (yy, r5) =>
            match pripAfterYear r5 with
            | some (maps4, det5) =>
              some ((⟨areaTxt⟩ : String), (⟨d1⟩ : String), (⟨yy⟩ : String),
                splitWs (maps4.getD []),
                det5.map fun d => (⟨d⟩ : String))
            | none => none
          | none => none
        | _ => none
      | _ => none
    | none => none
  else none

/-- `classify_hazard` (parser.py 432–589): the fixed bilingual keyword
rules, first match wins, `general` otherwise. -/
def classify_hazard (body : String) : String :=
  if body = "" then "general" else
  let text := upperStr body
  if (hasSub text "DERELICT" || hasSub text "БРОШЕНН" || hasSub text "БЕЗ ЭКИПАЖА") &&
      (hasSub text "ADRIFT" || hasSub text "ДРЕЙФ" || hasSub text "M/V" ||
        hasSub text "VESSEL" || hasSub text "СУДНО" || hasSub text "КОРАБЛ") then
    "derelict vessel"
  else if hasSub text "SHOAL" || hasSub text "SHALLOW" || hasSub text "BANK" ||
      hasSub text "МЕЛЬ" || hasSub text "МЕЛИ" || hasSub text "ОТМЕЛ" ||
      hasSub text "МАЛЫЕ ГЛУБИНЫ" || hasSub text "БАНКА" || hasSub text "БАНКИ" then
    "shoals"
  else if (hasSub text "RACON" || hasSub text "РАКОН" || hasSub text "LIGHT" ||
      hasSub text "ОГН" || hasSub text "МАЯК" || hasSub text "БУЙ" ||
      hasSub text "BEACON" || hasSub text "ПРИЧАЛЬНЫЙ ОГОНЬ") &&
      (hasSub text "INOPERATIVE" || hasSub text "UNLIT" || hasSub text "DAMAGED" ||
        hasSub text "EXTINGUISHED" || hasSub text "NOT OPERATIVE" ||
        hasSub text "НЕ РАБОТАЕТ" || hasSub text "НЕИСПРАВЕН" ||
        hasSub text "НЕ ИСПРАВЕН" || hasSub text "НЕ ГОРИТ" || hasSub text "ПОГАШЕН" ||
        hasSub text "ПОВРЕЖД" || hasSub text "СНЕСЕН" || hasSub text "СНЕСЁН" ||
        hasSub text "СНЕСЕНА") then
    "aid to navigation outage"
  else if hasSub text "ROCKET" || hasSub text "MISSILE" || hasSub text "FIRING" ||
      hasSub text "GUNNERY" || hasSub text "LIVE FIRE" ||
      hasSub text "HAZARDOUS OPERATIONS" || hasSub text "HAZ OPS" ||
      hasSub text "РАКЕТ" || hasSub text "ПУСК" || hasSub text "СТРЕЛЬБ" ||
      hasSub text "АРТИЛЛЕРИЙСКИЕ" || hasSub text "АРТИЛЛЕРИЙСКАЯ" ||
      hasSub text "БОЕВЫЕ СТРЕЛЬБЫ" || hasSub text "ОПАСНЫЕ РАБОТЫ" ||
      hasSub text "ОПАСНЫЙ РАЙОН" || hasSub text "ОПАСНЫЕ РАЙОНЫ" ||
      hasSub text "МИНОПОДРЫВ" || hasSub text "МИНОВЗРЫВ" || hasSub text "МИНОРАБОТЫ" then
    "hazardous operations"
  else if hasSub text "MOORING" || hasSub text "SCIENTIFIC MOORING" ||
      hasSub text "OCEANOGRAPHIC" || hasSub text "SCIENTIFIC BUOY" ||
      hasSub text "ЯКОРН" || hasSub text "БУЙ С КАБЕЛ" || hasSub text "НАУЧН" ||
      hasSub text "ОКЕАНОГРАФИЧЕСК" then
    "scientific mooring"
  else if (hasSub text "ENC" || hasSub text "ЭНК" ||
      hasSub text "ЭЛЕКТРОННАЯ НАВИГАЦИОННАЯ КАРТА") &&
      (hasSub text "CANCELLED" || hasSub text "CANCELED" || hasSub text "WITHDRAWN" ||
        hasSub text "SUSPENDED" || hasSub text "ОТМЕНЕНА" || hasSub text "ОТМЕНЁНА" ||
        hasSub text "ОТМЕНЕН" || hasSub text "СНЯТА" || hasSub text "СНЯТ" ||
        hasSub text "АННУЛИРОВАНА" || hasSub text "ОБНОВЛЕНА" || hasSub text "ОБНОВЛЁНA") then
    "chart advisory"
  else if hasSub text "ICEBERG" || hasSub text "ICEBERGS" || hasSub text "BERGS" ||
      hasSub text "SEA ICE" || hasSub text "PACK ICE" || hasSub text "DRIFT ICE" ||
      hasSub text "ICE EDGE" || hasSub text "POLYNYA" || hasSub text "ЛЁД" ||
      hasSub text "ЛЕД" || hasSub text "ЛЬДЫ" || hasSub text "ДРЕЙФУЮЩИЙ ЛЁД" ||
      hasSub text "ДРЕЙФУЮЩИЙ ЛЕД" || hasSub text "ДРЕЙФ ЛЬДА" ||
      hasSub text "СПЛОЧЕННЫЙ ЛЁД" || hasSub text "СПЛОЧЕННЫЙ ЛЕД" ||
      hasSub text "ПРИПАЙ" || hasSub text "КРОВАТЬ ЛЬДА" || hasSub text "АЙСБЕРГ" ||
      hasSub text "АЙСБЕРГИ" || hasSub text "КРОМКА ЛЬДА" || hasSub text "ПОЛЫНЬЯ" then
    "ice and icebergs"
  else "general"

/-- The enumeration marker `^\s*(?:[A-Z]|\d{1,2})\.` of
`parse_coordinate_groups`. -/
def enumMatch (cs : List Char) : Bool :=
  match (spanPy isSpacePy cs).2 with
  | a :: '.' :: _ => ('A' ≤ a && a ≤ 'Z') || isDigitPy a
  | a :: b :: '.' :: _ => isDigitPy a && isDigitPy b
  | _ => false

/-- `parse_coordinate_groups` (parser.py 379–398): a new group starts at
each enumeration marker; coordinates (no Cyrillic normalization here) are
collected per group; empty groups are never appended. -/
def parse_coordinate_groups (body : String) : List (List (ℚ × ℚ)) :=
  let fin := (splitLinesPy body.data).foldl
    (fun (st : List (List (ℚ × ℚ)) × List (ℚ × ℚ)) raw =>
      let line := stripPy raw
      let st1 := if enumMatch line then
          (if st.2 ≠ [] then (st.1 ++ [st.2], ([] : List (ℚ × ℚ))) else st)
        else st
      let pairs := (coordFindall line).foldl
        (fun acc p =>
          match coord_to_decimal p.1, coord_to_decimal p.2 with
          | some la, some lo => acc ++ [(la, lo)]
          | _, _ => acc) []
      (st1.1, st1.2 ++ pairs))
    ([], [])
  if fin.2 ≠ [] then fin.1 ++ [fin.2] else fin.1

def replaceCR (cs : List Char) : List Char :=
  cs.map fun c => if c = '\r' then '\n' else c

/-- `re.sub(r"\n{2,}", "\n", ·)`: every maximal newline run collapses to a
single newline. -/
def collapseNL : List Char → List Char
  | [] => []
  | '\n' :: t => '\n' :: collapseNL (t.dropWhile (fun c => c = '\n'))
  | c :: t => c :: collapseNL t
termination_by cs => cs.length
decreasing_by
  · simp_wf
    have := (List.dropWhile_sublist (l := t) (fun c => decide (c = '\n'))).length_le
    omega
  · simp_wf

/-- `str.replace("НННН", "")`: left-to-right, non-overlapping. -/
def removeNNNN : List Char → List Char
  | 'Н' :: 'Н' :: 'Н' :: 'Н' :: t => removeNNNN t
  | c :: t => c :: removeNNNN t
  | [] => []

/-- Python `f"{x}"` for an optional string. -/
def optStr : Option String → String
  | some s => s
  | none => "None"

/-- `prip_from_text` (parser.py 267–296).  Note: the identifier is built by
an f-string, so absent header fields render as the literal `None`. -/
def prip_from_text (prip_header prip_str : String) : NavwarnMessage :=
  let hdr := parse_prip_header prip_header
  let coords := parse_coordinates prip_str
  let (geometry, radius) := analyze_geometry prip_str coords
  let areaMapped : Option String := match hdr with
    | some (area, _, _, _, _) =>
      if area = "МУРМАНСК" then some "MURMANSK"
      else if area = "АРХАНГЕЛЬСК" then some "ARKHANGELSK"
      else if area = "ЗАПАД" then some "WEST"
      else none
    | none => none
  { dtg := none
    raw_dtg := prip_header
    msg_id := some ("PRIP " ++ optStr areaMapped ++ " "
      ++ (match hdr with | some (_, mid, _, _, _) => mid | none => "None")
      ++ "/" ++ (match hdr with | some (_, _, y, _, _) => y | none => "None"))
    coordinates := coords
    cancellations := prip_parse_cancellations prip_str
    hazard_type := some (classify_hazard prip_str)
    geometry := some geometry
    radius := radius
    groups := parse_coordinate_groups prip_str
    body := ⟨stripPy (removeNNNN (collapseNL (replaceCR prip_str.data)))⟩
    year := match hdr with
      | some (_, _, y, _, _) => if y = "" then none else some (.str ("20" ++ y))
      | none => none }

example : parse_prip_header "ПРИП МУРМАНСК 291/25 КАРТА 13004 МОТОВСКИЙ ЗАЛИВ"
    = some ("МУРМАНСК", "291", "25", ["13004"], some "МОТОВСКИЙ ЗАЛИВ") := by decide
example : parse_prip_header "X" = none := by decide

/-- Counterexample to C7 as stated: on a non-matching header the record's
identifier is not absent — the f-string renders the absent fields,
producing the literal string `PRIP None None/None`. -/
theorem claim_C7_counterexample :
    parse_prip_header "X" = none
    ∧ (prip_from_text "X" "Y").msg_id = some "PRIP None None/None"
    ∧ (prip_from_text "X" "Y").msg_id ≠ none := by
  refine ⟨by decide, by decide, by decide⟩

/-- C7 (amended): for every PRIP (header, body) pair whose header does not
match the header grammar, parsing does not raise; `parse_prip_header`
returns all-absent fields, the record's `year` and `dtg` are absent and the
body-derived fields (coordinates, cancellations, hazard, geometry, radius,
groups) are still computed from the body — but the record's identifier is
the literal string `PRIP None None/None` rather than absent. -/
theorem claim_C7_prip_header_failure (header body : String)
    (h : parse_prip_header header = none) :
    (prip_from_text header body).year = none
    ∧ (prip_from_text header body).dtg = none
    ∧ (prip_from_text header body).raw_dtg = header
    ∧ (prip_from_text header body).msg_id = some "PRIP None None/None"
    ∧ (prip_from_text header body).coordinates = parse_coordinates body
    ∧ (prip_from_text header body).cancellations = prip_parse_cancellations body
    ∧ (prip_from_text header body).hazard_type = some (classify_hazard body)
    ∧ (prip_from_text header body).geometry
        = some (analyze_geometry body (parse_coordinates body)).1
    ∧ (prip_from_text header body).radius
        = (analyze_geometry body (parse_coordinates body)).2
    ∧ (prip_from_text header body).groups = parse_coordinate_groups body := by
  rcases hga : analyze_geometry body (parse_coordinates body) with ⟨g, r⟩
  simp [prip_from_text, h, hga, optStr]

/-- Witness for the amended C7 at the non-matching header `X`. -/
theorem claim_C7_prip_header_failure_witness :
    (prip_from_text "X" "68-30.0С 041-35.0В").year = none
    ∧ (prip_from_text "X" "68-30.0С 041-35.0В").coordinates
        = parse_coordinates "68-30.0С 041-35.0В" :=
  let h := claim_C7_prip_header_failure "X" "68-30.0С 041-35.0В" (by decide)
  ⟨h.1, h.2.2.2.2.1⟩

/-! ## `extract_year` (parser.py 663–680) -/

/-- One attempt of `/(\d{2})(?:\b|\D*$)`: a slash, exactly two digits, then
either a word boundary or a digit-free tail (`\D*$` succeeds exactly when
no digit remains, since `\D` also matches the newline `$` may precede). -/
def yearSuffixAt (cs : List Char) : Option ℕ :=
  match cs with
  | '/' :: r =>
    match exactRun isDigitPy 2 r with
    | some (yy, rest) =>
      if rest = [] then some (natOfDigits yy)
      else if !isWordPy (rest.headD ' ') then some (natOfDigits yy)
      else if rest.all (fun c => !isDigitPy c) then some (natOfDigits yy)
      else none
    | none => none
  | _ => none

def yearScan : ℕ → List Char → Option ℕ
  | 0, _ => none
  | _ + 1, [] => none
  | fuel + 1, c :: t =>
    match yearSuffixAt (c :: t) with
    | some yy => some yy
    | none => yearScan fuel t

/-- `re.search(r"/(\d{2})(?:\b|\D*$)", msg_id)`: first matching slash. -/
def findYearSuffix (cs : List Char) : Option ℕ := yearScan (cs.length + 1) cs

def yearFromDtg : Option DT → Option ℤ
  | some d => some (d.year : ℤ)
  | none => none

/-- `extract_year` (parser.py 663–680): a two-digit suffix found in the
(truthy) identifier maps 00–79 to 2000s and 80–99 to 1900s; otherwise the
DTG year; otherwise absent. -/
def extract_year (msg_id : Option String) (dtg : Option DT) : Option ℤ :=
  match msg_id with
  | some mid =>
    if mid = "" then yearFromDtg dtg
    else
      match findYearSuffix mid.data with
      | some yy => some (if yy ≤ 79 then 2000 + (yy : ℤ) else 1900 + (yy : ℤ))
      | none => yearFromDtg dtg
  | none => yearFromDtg dtg

/-- Counterexample to C8 as stated: `HYDROARC 136/25(15)` does not end in
`/yy` (its last character is `)`), so by the claim the year should fall
back to the DTG year 2010; the code instead finds the boundary-delimited
`/25` in the middle and returns 2025. -/
theorem claim_C8_counterexample :
    ("HYDROARC 136/25(15)".data.getLast? = some ')')
    ∧ extract_year (some "HYDROARC 136/25(15)") (some ⟨2010, 1, 1, 0, 0⟩) = some 2025
    ∧ (some (2025 : ℤ)) ≠ some (2010 : ℤ) := by
  refine ⟨by decide, by decide, by decide⟩

/-- C8 (amended): the year is `2000 + yy` (for `00 ≤ yy ≤ 79`) or
`1900 + yy` (for `80 ≤ yy ≤ 99`) where `yy` is the *first* occurrence in
the identifier of `/` followed by two digits followed by a word boundary
or a digit-free tail — not only a literal `/yy` ending; otherwise the year
of the parsed DTG when available; and the year is populated whenever such
a suffix occurrence or a DTG is present. -/
theorem claim_C8_year_inference (mid : Option String) (dtg : Option DT) :
    (∀ (s : String) (yy : ℕ), mid = some s → s ≠ "" → findYearSuffix s.data = some yy →
        extract_year mid dtg = some (if yy ≤ 79 then 2000 + (yy : ℤ) else 1900 + (yy : ℤ)))
    ∧ ((∀ s : String, mid = some s → s ≠ "" → findYearSuffix s.data = none) →
        extract_year mid dtg = yearFromDtg dtg)
    ∧ ((∃ (s : String) (yy : ℕ), mid = some s ∧ s ≠ "" ∧ findYearSuffix s.data = some yy)
        ∨ dtg ≠ none → extract_year mid dtg ≠ none) := by
  refine ⟨?_, ?_, ?_⟩
  · intro s yy hmid hne hfind
    subst hmid
    simp [extract_year, hne, hfind]
  · intro hnone
    cases mid with
    | none => rfl
    | some s =>
      by_cases hne : s = ""
      · simp [extract_year, hne]
      · simp [extract_year, hne, hnone s rfl hne]
  · intro hsrc
    rcases hsrc with ⟨s, yy, hmid, hne, hfind⟩ | hdtg
    · subst hmid
      simp [extract_year, hne, hfind]
    · cases mid with
      | none =>
        cases dtg with
        | none => exact absurd rfl hdtg
        | some d => simp [extract_year, yearFromDtg]
      | some s =>
        by_cases hne : s = ""
        · cases dtg with
          | none => exact absurd rfl hdtg
          | some d => simp [extract_year, hne, yearFromDtg]
        · cases hfind : findYearSuffix s.data with
          | some yy => simp [extract_year, hne, hfind]
          | none =>
            cases dtg with
            | none => exact absurd rfl hdtg
            | some d => simp [extract_year, hne, hfind, yearFromDtg]

/-- Witness for the amended C8 at `HYDROARC 136/25` together with the
populated-year invariant for a DTG-only message. -/
theorem claim_C8_year_inference_witness :
    extract_year (some "HYDROARC 136/25") none = some (if 25 ≤ 79 then 2000 + (25 : ℤ) else 1900 + 25)
    ∧ extract_year none (some ⟨2024, 5, 1, 0, 0⟩) ≠ none :=
  ⟨(claim_C8_year_inference (some "HYDROARC 136/25") none).1 "HYDROARC 136/25" 25 rfl
      (by decide) (by decide),
    (claim_C8_year_inference none (some ⟨2024, 5, 1, 0, 0⟩)).2.2 (Or.inr (by simp))⟩

end Navwarns
